import Mathlib

/-! # KittyFeeder2: feed-compartment doors and cooler settings

A shallow embedding of `FeedCompart.h`, `FeederConfig.h` and
`ThermoCooler.cpp`, followed by theorems about them.

Target conventions (Arduino Mega, AVR): `int` is 16 bits, `long` and
`unsigned long` are 32 bits, `time_t` is `unsigned long`, structs are laid out
without padding and multi-byte integers are little-endian.  Machine integers
are `Nat`/`Int` with explicit reductions where a value can leave its range;
the temperatures of the cooler are exact rationals.

State is passed explicitly: every method takes the object and the EEPROM and
returns the new object and the new EEPROM.  `now()` and `millis()` are inputs
of the call.  Log output (`STOREM`/`PRINTM`) has no effect on the state and is
left out.
-/

namespace KittyFeeder

/-! ## EEPROM -/

/-- The byte store `EEPROM`: address to cell content. Addresses are not
wrapped; every slot of the program lies inside the device. -/
abbrev EEPROM := Nat → Nat

/-- Reading `EEPROM[a]` yields a `uint8_t`. -/
def EEPROM.read (e : EEPROM) (a : Nat) : Nat := e a % 256

/-- Writing `EEPROM[a] = v` stores the low byte of `v`. -/
def EEPROM.write (e : EEPROM) (a v : Nat) : EEPROM :=
  fun x => if x = a then v % 256 else e x

/-- The bytes `EEPROM[loc] .. EEPROM[loc + len - 1]`. -/
def EEPROM.bytes (e : EEPROM) (loc len : Nat) : List Nat :=
  (List.range len).map fun i => e.read (loc + i)

/-- Modelled from the spec: `EEGenerateCrc(loc, len)` is declared in
FeederUtils.h, which is not among the sources. The spec (section 6) describes
it as "an accompanying CRC-32-style checksum function over an (offset, length)
range"; here it is the 32-bit value of an arbitrary function `crcOf` of the
bytes stored in that range. -/
def EEGenerateCrc (crcOf : List Nat → Nat) (e : EEPROM) (loc len : Nat) : Nat :=
  crcOf (e.bytes loc len) % 2 ^ 32

/-- Table of the Arduino EEPROM CRC example. -/
def crc_table : List Nat :=
  [0x00000000, 0x1db71064, 0x3b6e20c8, 0x26d930ac,
   0x76dc4190, 0x6b6b51f4, 0x4db26158, 0x5005713c,
   0xedb88320, 0xf00f9344, 0xd6d6a3e8, 0xcb61b38c,
   0x9b64c2b0, 0x86d3d2d4, 0xa00ae278, 0xbdbdf21c]

/-- One iteration of the loop of the Arduino EEPROM CRC example. -/
def eeprom_crc_step (crc b : Nat) : Nat :=
  let crc := crc_table.getD ((crc ^^^ b) &&& 0x0f) 0 ^^^ (crc >>> 4)
  let crc := crc_table.getD ((crc ^^^ (b >>> 4)) &&& 0x0f) 0 ^^^ (crc >>> 4)
  0xffffffff - crc

/-- Modelled from the spec: a concrete checksum for evaluating the code on
concrete inputs. FeederUtils.h is not among the sources; FeedCompart.h says
of its CRC "Code found on Arduino EEPROM example page", and this is that
example's loop run over the given bytes. -/
def eeprom_crc (bs : List Nat) : Nat :=
  bs.foldl eeprom_crc_step 0xffffffff

/-! ## Integer conversions and `map` -/

/-- Conversion to a 16-bit `int`. -/
def toInt16 (z : Int) : Int := (z + 2 ^ 15) % 2 ^ 16 - 2 ^ 15

/-- Conversion to a 32-bit `long`. -/
def toInt32 (z : Int) : Int := (z + 2 ^ 31) % 2 ^ 32 - 2 ^ 31

/-- Arduino `constrain(amt, low, high)`. -/
def constrain (amt low high : Nat) : Nat :=
  if amt < low then low else if amt > high then high else amt

/-- Arduino `long map(long x, long in_min, long in_max, long out_min, long out_max)`:
`(x - in_min) * (out_max - out_min) / (in_max - in_min) + out_min` in `long`
arithmetic, the division truncating toward zero. -/
def map (x in_min in_max out_min out_max : Int) : Int :=
  toInt32 (Int.tdiv (toInt32 (toInt32 (x - in_min) * toInt32 (out_max - out_min)))
    (toInt32 (in_max - in_min)) + out_min)

/-! ## Servo -/

/-- Modelled from the spec: the Servo library is external. "Actuator handle:
abstract capability exposing attach/detach, writePosition(angleDegrees),
readPosition() -> angleDegrees": `write` stores the angle clamped to 0..180
and `read` returns it. `writes` is the trace of the arguments of the `write`
calls made so far, most recent first. -/
structure Servo where
  pin : Option Nat
  angle : Nat
  writes : List Int
deriving DecidableEq, Repr

/-- Method `Servo::attach(pin)`. -/
def Servo.attach (s : Servo) (pin : Nat) : Servo := { s with pin := some pin }

/-- Method `Servo::write(int value)`: the argument is converted to `int`, clamped to
0..180 and stored. -/
def Servo.write (s : Servo) (value : Int) : Servo :=
  let v := toInt16 value
  let v := if v < 0 then 0 else if v > 180 then 180 else v
  { s with angle := v.toNat, writes := value :: s.writes }

/-- Method `Servo::read()`. -/
def Servo.read (s : Servo) : Nat := s.angle

/-! ## TimeLib -/

/-- TimeLib `tmElements_t`; every field is a `uint8_t`, `Year` counts from 1970. -/
structure tmElements_t where
  Second : Nat
  Minute : Nat
  Hour : Nat
  Wday : Nat
  Day : Nat
  Month : Nat
  Year : Nat
deriving DecidableEq, Repr

/-- TimeLib `LEAP_YEAR(Y)`, `Y` counted from 1970. -/
def LEAP_YEAR (Y : Nat) : Bool :=
  decide (1970 + Y > 0) && ((1970 + Y) % 4 == 0) &&
    (((1970 + Y) % 100 != 0) || ((1970 + Y) % 400 == 0))

/-- TimeLib `monthDays`. -/
def monthDays : List Nat := [31, 28, 31, 30, 31, 30, 31, 31, 30, 31, 30, 31]

/-- Days of year `Y`: `LEAP_YEAR(Y) ? 366 : 365`. -/
def yearLength (Y : Nat) : Nat := if LEAP_YEAR Y then 366 else 365

/-- The loop `while((unsigned)(days += (LEAP_YEAR(year) ? 366 : 365)) <= time) year++;`
of `breakTime`, with `year` a `uint8_t` and `unsigned` 16 bits wide. The first
argument bounds the number of iterations. -/
def breakTime_yearLoop (time : Nat) : Nat → Nat → Nat → Nat × Nat
  | 0, year, days => (year, days)
  | fuel + 1, year, days =>
    let days := (days + yearLength year) % 2 ^ 32
    if days % 2 ^ 16 ≤ time then breakTime_yearLoop time fuel ((year + 1) % 256) days
    else (year, days)

/-- Length of month `month` (0 = January) as computed inside `breakTime`. -/
def monthLength (year month : Nat) : Nat :=
  if month = 1 then (if LEAP_YEAR year then 29 else 28) else monthDays.getD month 0

/-- The loop `for (month=0; month<12; month++)` of `breakTime`; the first
argument is the number of iterations left. -/
def breakTime_monthLoop (year : Nat) : Nat → Nat → Nat → Nat × Nat
  | 0, month, time => (month, time)
  | n + 1, month, time =>
    if time ≥ monthLength year month then
      breakTime_monthLoop year n (month + 1) ((time + 2 ^ 32 - monthLength year month) % 2 ^ 32)
    else (month, time)

/-- TimeLib `breakTime(timeInput, tm)`. -/
def breakTime (timeInput : Nat) : tmElements_t :=
  let time := timeInput % 2 ^ 32
  let Second := time % 60
  let time := time / 60
  let Minute := time % 60
  let time := time / 60
  let Hour := time % 24
  let time := time / 24
  let Wday := ((time + 4) % 7) + 1
  let yd := breakTime_yearLoop time 256 0 0
  let year := yd.1
  let days := (yd.2 + 2 ^ 32 - yearLength year) % 2 ^ 32
  let time := (time + 2 ^ 32 - days) % 2 ^ 32
  let mt := breakTime_monthLoop year 12 0 time
  { Second := Second, Minute := Minute, Hour := Hour, Wday := Wday,
    Day := (mt.2 + 1) % 256, Month := (mt.1 + 1) % 256, Year := year }

/-- The loop `for (i = 0; i < tm.Year; i++)` of `makeTime`: the value of
`seconds` after the first argument's number of iterations. -/
def makeTime_yearLoop : Nat → Nat → Nat
  | 0, seconds => seconds
  | i + 1, seconds =>
    let s := makeTime_yearLoop i seconds
    if LEAP_YEAR i then (s + 86400) % 2 ^ 32 else s

/-- The loop `for (i = 1; i < tm.Month; i++)` of `makeTime`: the value of
`seconds` after the iterations `i = 1 .. k`. -/
def makeTime_monthLoop (Year : Nat) : Nat → Nat → Nat
  | 0, seconds => seconds
  | k + 1, seconds =>
    let s := makeTime_monthLoop Year k seconds
    if k + 1 = 2 ∧ LEAP_YEAR Year = true then (s + 86400 * 29) % 2 ^ 32
    else (s + 86400 * monthDays.getD k 0) % 2 ^ 32

/-- TimeLib `makeTime(tm)`, in `uint32_t` arithmetic. -/
def makeTime (tm : tmElements_t) : Nat :=
  let seconds := (tm.Year * (86400 * 365)) % 2 ^ 32
  let seconds := makeTime_yearLoop tm.Year seconds
  let seconds := makeTime_monthLoop tm.Year (tm.Month - 1) seconds
  let seconds := (seconds + ((tm.Day + 2 ^ 32 - 1) % 2 ^ 32) * 86400) % 2 ^ 32
  let seconds := (seconds + tm.Hour * 3600) % 2 ^ 32
  let seconds := (seconds + tm.Minute * 60) % 2 ^ 32
  (seconds + tm.Second) % 2 ^ 32

/-- TimeLib `weekday(t)`: Sunday is day 1. TimeLib answers from a cache that it
refreshes with `breakTime(t)`; the value is that of `breakTime(t)`. -/
def weekday (t : Nat) : Nat := (breakTime t).Wday

/-- TimeLib `hour(t)`. -/
def hour (t : Nat) : Nat := (breakTime t).Hour

/-- TimeLib `minute(t)`. -/
def minute (t : Nat) : Nat := (breakTime t).Minute

/-! ## FeedCompart.h -/

/-- Constant `DOOR_SPEED`: ms to open and close door. -/
def DOOR_SPEED : Nat := 3000

/-- Constant `DOOR_OPEN_TIME`: minutes the door should stay open. -/
def DOOR_OPEN_TIME : Nat := 3

/-- Type `struct EECompartSettings`: four one-byte fields followed by the 32-bit
`crc`. `enabled` is the byte of the `boolean`: `false` is 0, `true` is 1, and
a condition tests it against 0. -/
structure EECompartSettings where
  enabled : Nat
  Minute : Nat
  Hour : Nat
  Wday : Nat
  crc : Nat
deriving DecidableEq, Repr

/-- Constant `FEED_COMPART_EE_SIZE`, that is `sizeof(EECompartSettings)`. -/
def FEED_COMPART_EE_SIZE : Nat := 8

/-- The byte `((unsigned char*)&settings)[i]`. -/
def EECompartSettings.byte (s : EECompartSettings) (i : Nat) : Nat :=
  match i with
  | 0 => s.enabled % 256
  | 1 => s.Minute % 256
  | 2 => s.Hour % 256
  | 3 => s.Wday % 256
  | 4 => s.crc % 256
  | 5 => s.crc / 2 ^ 8 % 256
  | 6 => s.crc / 2 ^ 16 % 256
  | 7 => s.crc / 2 ^ 24 % 256
  | _ => 0

/-- The struct whose eight bytes are `b 0 .. b 7`. -/
def EECompartSettings.ofBytes (b : Nat → Nat) : EECompartSettings :=
  { enabled := b 0 % 256, Minute := b 1 % 256, Hour := b 2 % 256, Wday := b 3 % 256,
    crc := b 4 % 256 + 2 ^ 8 * (b 5 % 256) + 2 ^ 16 * (b 6 % 256) + 2 ^ 24 * (b 7 % 256) }

/-- Type `enum DoorState`. -/
inductive DoorState where
  | CLOSED
  | OPENING
  | OPEN
  | CLOSING
deriving DecidableEq, Repr

open DoorState

/-- The data members of `class FeedCompart`. -/
structure FeedCompart where
  eepromLoc : Nat
  settings : EECompartSettings
  doorServo : Servo
  servoPin : Nat
  currDoorState : DoorState
  msStateChange : Nat
  openDeg : Nat
  closeDeg : Nat
  id : Nat
deriving DecidableEq, Repr

/-- The constructor `FeedCompart(servoPin, eepromLoc, closeDeg, openDeg)`. It
does not initialise `settings`; `settings`, the default-constructed
`doorServo` and the `id` drawn from the static counter are arguments. -/
def FeedCompart.new (servoPin eepromLoc closeDeg openDeg : Nat)
    (settings : EECompartSettings) (doorServo : Servo) (id : Nat) : FeedCompart :=
  { eepromLoc := eepromLoc, settings := settings, doorServo := doorServo,
    servoPin := servoPin, currDoorState := CLOSED, msStateChange := 0,
    openDeg := openDeg, closeDeg := closeDeg, id := id }

/-- Method `FeedCompart::generateCrc()`: the checksum of the EEPROM bytes of the
slot, the four bytes of the trailing `crc` left out. -/
def FeedCompart.generateCrc (crcOf : List Nat → Nat) (fc : FeedCompart) (e : EEPROM) : Nat :=
  EEGenerateCrc crcOf e fc.eepromLoc (FEED_COMPART_EE_SIZE - 4)

/-- Method `FeedCompart::loadSettingsFromEE()`: the new object and the returned flag. -/
def FeedCompart.loadSettingsFromEE (crcOf : List Nat → Nat) (fc : FeedCompart) (e : EEPROM) :
    FeedCompart × Bool :=
  let settings := EECompartSettings.ofBytes fun i => e.read (fc.eepromLoc + i)
  let settings := { settings with Wday := constrain settings.Wday 1 7 }
  let settings := { settings with Hour := constrain settings.Hour 0 23 }
  let settings := { settings with Minute := constrain settings.Minute 0 59 }
  let fc := { fc with settings := settings }
  (fc, fc.generateCrc crcOf e == fc.settings.crc)

/-- Method `FeedCompart::saveSettingsToEE()`: the new object and the new EEPROM. -/
def FeedCompart.saveSettingsToEE (crcOf : List Nat → Nat) (fc : FeedCompart) (e : EEPROM) :
    FeedCompart × EEPROM :=
  let fc := { fc with settings := { fc.settings with crc := fc.generateCrc crcOf e } }
  (fc, (List.range FEED_COMPART_EE_SIZE).foldl
    (fun e i => e.write (fc.eepromLoc + i) (fc.settings.byte i)) e)

/-- Method `FeedCompart::begin()`; `curr` is the value of `now()`. -/
def FeedCompart.begin (crcOf : List Nat → Nat) (fc : FeedCompart) (e : EEPROM) (curr : Nat) :
    FeedCompart × EEPROM :=
  let r := fc.loadSettingsFromEE crcOf e
  let fe : FeedCompart × EEPROM :=
    if !r.2 then
      let fc := r.1
      let fc := { fc with settings := { fc.settings with Minute := minute curr } }
      let fc := { fc with settings := { fc.settings with Hour := hour curr } }
      let fc := { fc with settings := { fc.settings with Wday := weekday curr } }
      let fc := { fc with settings := { fc.settings with enabled := 0 } }
      fc.saveSettingsToEE crcOf e
    else (r.1, e)
  let fc := fe.1
  let fc := { fc with doorServo := fc.doorServo.attach fc.servoPin }
  let fc := { fc with doorServo := fc.doorServo.write fc.closeDeg }
  (fc, fe.2)

/-- The argument `(long int)(millis() - msStateChange)` of `map`. -/
def FeedCompart.elapsed (fc : FeedCompart) (ms : Nat) : Int :=
  toInt32 (((ms + 2 ^ 32 - fc.msStateChange % 2 ^ 32) % 2 ^ 32 : Nat) : Int)

/-- The local `set` of `service`: `makeTime` of `breakTime(curr)` with `Hour`,
`Minute` and `Second` replaced. -/
def FeedCompart.setTime (fc : FeedCompart) (curr : Nat) : Nat :=
  let to_open := breakTime curr
  let to_open := { to_open with Hour := fc.settings.Hour }
  let to_open := { to_open with Minute := fc.settings.Minute }
  let to_open := { to_open with Second := 0 }
  makeTime to_open

/-- Method `FeedCompart::service()`; `curr` is the value of `now()` and `ms` the
value of `millis()`. -/
def FeedCompart.service (crcOf : List Nat → Nat) (fc : FeedCompart) (e : EEPROM)
    (curr ms : Nat) : FeedCompart × EEPROM :=
  if fc.settings.enabled ≠ 0 ∧ weekday curr = fc.settings.Wday then
    let set := fc.setTime curr
    match fc.currDoorState with
    | CLOSED =>
      if curr ≥ set ∧ curr < (set + 60 * DOOR_OPEN_TIME) % 2 ^ 32 then
        ({ fc with msStateChange := ms, currDoorState := OPENING }, e)
      else (fc, e)
    | OPENING =>
      if fc.doorServo.read ≠ fc.openDeg then
        ({ fc with doorServo :=
            fc.doorServo.write (map (fc.elapsed ms) 0 DOOR_SPEED fc.closeDeg fc.openDeg) }, e)
      else ({ fc with msStateChange := ms, currDoorState := OPEN }, e)
    | OPEN =>
      if curr ≥ (set + 60 * DOOR_OPEN_TIME) % 2 ^ 32 then
        ({ fc with msStateChange := ms, currDoorState := CLOSING }, e)
      else (fc, e)
    | CLOSING =>
      if fc.doorServo.read ≠ fc.closeDeg then
        ({ fc with doorServo :=
            fc.doorServo.write (map (fc.elapsed ms) 0 DOOR_SPEED fc.openDeg fc.closeDeg) }, e)
      else
        let fc := { fc with msStateChange := ms, currDoorState := CLOSED }
        let fc := { fc with settings := { fc.settings with enabled := 0 } }
        fc.saveSettingsToEE crcOf e
  else ({ fc with currDoorState := CLOSED }, e)

/-- Method `FeedCompart::enable()`. -/
def FeedCompart.enable (crcOf : List Nat → Nat) (fc : FeedCompart) (e : EEPROM) :
    FeedCompart × EEPROM :=
  let fc := { fc with settings := { fc.settings with enabled := 1 } }
  fc.saveSettingsToEE crcOf e

/-- Method `FeedCompart::isEnabled()`. -/
def FeedCompart.isEnabled (fc : FeedCompart) : Bool := fc.settings.enabled != 0

/-- A run of `service` calls, one per `(now(), millis())` pair of the list. -/
def FeedCompart.serviceRun (crcOf : List Nat → Nat) :
    FeedCompart × EEPROM → List (Nat × Nat) → FeedCompart × EEPROM
  | fe, [] => fe
  | fe, t :: ts => FeedCompart.serviceRun crcOf (fe.1.service crcOf fe.2 t.1 t.2) ts

/-! ## FeederConfig.h -/

/-- Constant `SERVO1_OPEN`. -/
def SERVO1_OPEN : Nat := 90

/-- Constant `SERVO1_CLOSE`. -/
def SERVO1_CLOSE : Nat := 0

/-- Constant `SERVO2_OPEN`. -/
def SERVO2_OPEN : Nat := 0

/-- Constant `SERVO2_CLOSE`. -/
def SERVO2_CLOSE : Nat := 90

/-- Constant `EEPROM_FEEDER_SETTING_LOC`. -/
def EEPROM_FEEDER_SETTING_LOC : Nat := 0

/-- Constant `EEPROM_COOLER_SETTINGS_LOC`. -/
def EEPROM_COOLER_SETTINGS_LOC : Nat := EEPROM_FEEDER_SETTING_LOC + 2 * FEED_COMPART_EE_SIZE

/-! ## ThermoCooler.cpp: persistence -/

/-- Modelled from the spec: the settings struct of the cooler is declared in
ThermoCooler.h, which is not among the sources. "ThermalSettings: setpointF:
integer temperature; checksum: uint32": a 16-bit `int` set point followed by
the 32-bit `crc`. -/
structure ThermoCoolerSettings where
  set_temp : Int
  crc : Nat
deriving DecidableEq, Repr

/-- Modelled from the spec: `THERMO_COOLER_EE_SIZE` is defined in
ThermoCooler.h, which is not among the sources; it is the size of the struct
above, `crc` last. -/
def THERMO_COOLER_EE_SIZE : Nat := 6

/-- The byte `((char*)&settings)[i]`. -/
def ThermoCoolerSettings.byte (s : ThermoCoolerSettings) (i : Nat) : Nat :=
  match i with
  | 0 => (s.set_temp % 2 ^ 16).toNat % 256
  | 1 => (s.set_temp % 2 ^ 16).toNat / 2 ^ 8 % 256
  | 2 => s.crc % 256
  | 3 => s.crc / 2 ^ 8 % 256
  | 4 => s.crc / 2 ^ 16 % 256
  | 5 => s.crc / 2 ^ 24 % 256
  | _ => 0

/-- The struct whose six bytes are `b 0 .. b 5`. -/
def ThermoCoolerSettings.ofBytes (b : Nat → Nat) : ThermoCoolerSettings :=
  { set_temp := toInt16 ((b 0 % 256 + 2 ^ 8 * (b 1 % 256) : Nat) : Int),
    crc := b 2 % 256 + 2 ^ 8 * (b 3 % 256) + 2 ^ 16 * (b 4 % 256) + 2 ^ 24 * (b 5 % 256) }

/-- The data members of `class ThermoCooler` (the sensor callback is an input
of `service`). -/
structure ThermoCooler where
  pin : Int
  eepromLoc : Nat
  settings : ThermoCoolerSettings
  enabled : Bool
  pwmPercent : Nat
  last_temp : ℚ

/-- Method `ThermoCooler::generateCrc()`. -/
def ThermoCooler.generateCrc (crcOf : List Nat → Nat) (tc : ThermoCooler) (e : EEPROM) : Nat :=
  EEGenerateCrc crcOf e tc.eepromLoc (THERMO_COOLER_EE_SIZE - 4)

/-- Method `ThermoCooler::loadSettingsFromEE()`: the loop reads `EEPROM[i]`. -/
def ThermoCooler.loadSettingsFromEE (crcOf : List Nat → Nat) (tc : ThermoCooler) (e : EEPROM) :
    ThermoCooler × Bool :=
  let tc := { tc with settings := ThermoCoolerSettings.ofBytes fun i => e.read i }
  (tc, tc.settings.crc == tc.generateCrc crcOf e)

/-- Method `ThermoCooler::saveSettingsToEE()`: the loop writes `EEPROM[i]`. -/
def ThermoCooler.saveSettingsToEE (crcOf : List Nat → Nat) (tc : ThermoCooler) (e : EEPROM) :
    ThermoCooler × EEPROM :=
  let tc := { tc with settings := { tc.settings with crc := tc.generateCrc crcOf e } }
  (tc, (List.range THERMO_COOLER_EE_SIZE).foldl (fun e i => e.write i (tc.settings.byte i)) e)

/-- Method `ThermoCooler::setTemp(int temp)`. -/
def ThermoCooler.setTemp (crcOf : List Nat → Nat) (tc : ThermoCooler) (e : EEPROM) (temp : Int) :
    ThermoCooler × EEPROM :=
  let tc := { tc with settings := { tc.settings with set_temp := toInt16 temp } }
  tc.saveSettingsToEE crcOf e

/-! ## ThermoCooler.cpp: the control loop -/

/-- The conversion `(long)x` of a `double`: truncation toward zero. The
arguments at the call sites stay far inside the range of `long`. -/
def toLong (x : ℚ) : Int := if 0 ≤ x then ⌊x⌋ else ⌈x⌉

/-- Arduino `round(x)`, the macro `((x)>=0?(long)((x)+0.5):(long)((x)-0.5))`:
rounding to the nearest integer, halves away from zero. -/
def round (x : ℚ) : Int := if x ≥ 0 then toLong (x + 1 / 2) else toLong (x - 1 / 2)

/-- Conversion to `uint16_t`. -/
def toUInt16 (z : Int) : Nat := (z % 2 ^ 16).toNat

/-- The call that `service` makes on the output pin. -/
inductive PinWrite where
  | digitalWrite (pin : Int) (val : Nat)
  | analogWrite (pin : Int) (val : Int)
deriving DecidableEq, Repr

/-- The constructor `ThermoCooler(pin, gettemp, eepromLoc)`. It does not
initialise `settings` and `last_temp`, which are arguments here; the sensor
callback `gettemp` is an input of `service`. -/
def ThermoCooler.new (pin : Int) (eepromLoc : Nat) (settings : ThermoCoolerSettings)
    (last_temp : ℚ) : ThermoCooler :=
  { pin := pin, eepromLoc := eepromLoc, settings := settings, enabled := false,
    pwmPercent := 0, last_temp := last_temp }

/-- Method `ThermoCooler::service()`. `BAND` is the constant `TC_PWM_DELTA_DEG`
of ThermoCooler.h, which is not among the sources, and `sample` is the value
returned by `(*gettemp)()`. Temperatures are exact rationals. Returns the new
object and the call made on the output pin. -/
def ThermoCooler.service (BAND : ℚ) (tc : ThermoCooler) (sample : ℚ) :
    ThermoCooler × PinWrite :=
  let current := (sample + tc.last_temp) / 2
  let delta := current - tc.settings.set_temp
  let r : ThermoCooler × PinWrite :=
    if !tc.enabled then
      ({ tc with pwmPercent := 0 }, PinWrite.digitalWrite tc.pin 0)
    else if current > tc.settings.set_temp + BAND then
      ({ tc with pwmPercent := 100 }, PinWrite.digitalWrite tc.pin 1)
    else if current > tc.settings.set_temp - BAND then
      let pwm : ℚ := round (128 + (127 * delta) / BAND)
      ({ tc with pwmPercent := toUInt16 (round ((pwm * 100) / 255)) },
        PinWrite.analogWrite tc.pin (toInt16 (toLong pwm)))
    else
      ({ tc with pwmPercent := 0 }, PinWrite.digitalWrite tc.pin 0)
  ({ r.1 with last_temp := current }, r.2)

/-- Method `ThermoCooler::begin()`. -/
def ThermoCooler.begin (crcOf : List Nat → Nat) (BAND : ℚ) (tc : ThermoCooler) (e : EEPROM)
    (sample : ℚ) : (ThermoCooler × PinWrite) × EEPROM :=
  let r := tc.loadSettingsFromEE crcOf e
  let te : ThermoCooler × EEPROM :=
    if !r.2 then
      let tc := { r.1 with last_temp := 0 }
      let tc := { tc with settings := { tc.settings with set_temp := 40 } }
      tc.saveSettingsToEE crcOf e
    else (r.1, e)
  (te.1.service BAND sample, te.2)

/-- Method `ThermoCooler::getPwmPercent()`. -/
def ThermoCooler.getPwmPercent (tc : ThermoCooler) : Nat := tc.pwmPercent

/-- Method `ThermoCooler::getTemp()`. -/
def ThermoCooler.getTemp (tc : ThermoCooler) : ℚ := tc.last_temp

/-- Method `ThermoCooler::disable()`. -/
def ThermoCooler.disable (tc : ThermoCooler) : ThermoCooler := { tc with enabled := false }

/-- Method `ThermoCooler::enable()`. -/
def ThermoCooler.enable (tc : ThermoCooler) : ThermoCooler := { tc with enabled := true }

/-! ## Calendar sums used to state what the TimeLib loops compute -/

/-- Days from 1 January 1970 to 1 January of year `Y` (counted from 1970). -/
def yearStart : Nat → Nat
  | 0 => 0
  | Y + 1 => yearStart Y + yearLength Y

/-- Days from 1 January of `year` to the first day of month `m` (0 = January). -/
def monthStart (year : Nat) : Nat → Nat
  | 0 => 0
  | m + 1 => monthStart year m + monthLength year m

/-! ## Concrete inputs -/

/-- A blank EEPROM: every cell reads 0xFF. -/
def blankEEPROM : EEPROM := fun _ => 255

/-- An EEPROM whose cells are all 0. -/
def zeroEEPROM : EEPROM := fun _ => 0

/-- Door 1 as configured in FeederConfig.h, armed for Monday 08:30. -/
def door1Monday : FeedCompart :=
  FeedCompart.new 9 EEPROM_FEEDER_SETTING_LOC SERVO1_CLOSE SERVO1_OPEN
    { enabled := 1, Minute := 30, Hour := 8, Wday := 2, crc := 0 }
    { pin := none, angle := 0, writes := [] } 1

/-- The cooler with its slot at `EEPROM_COOLER_SETTINGS_LOC`. -/
def cooler : ThermoCooler :=
  { pin := 4, eepromLoc := EEPROM_COOLER_SETTINGS_LOC, settings := { set_temp := 0, crc := 0 },
    enabled := false, pwmPercent := 0, last_temp := 0 }

/-- Door 1 closed and armed for Sunday 06:28. -/
def door1Sunday : FeedCompart :=
  FeedCompart.new 9 EEPROM_FEEDER_SETTING_LOC SERVO1_CLOSE SERVO1_OPEN
    { enabled := 1, Minute := 28, Hour := 6, Wday := 1, crc := 0 }
    { pin := none, angle := 0, writes := [] } 1

/-- Door 1 armed for Monday 08:30, in phase OPENING since `millis()` = 1000,
the servo still at the closed angle. -/
def door1Opening : FeedCompart :=
  { door1Monday with currDoorState := OPENING, msStateChange := 1000 }

/-- Door 1 armed for Monday 23:57, standing open. -/
def door1LateOpen : FeedCompart :=
  { FeedCompart.new 9 EEPROM_FEEDER_SETTING_LOC SERVO1_CLOSE SERVO1_OPEN
      { enabled := 1, Minute := 57, Hour := 23, Wday := 2, crc := 0 }
      { pin := some 9, angle := 90, writes := [90] } 1 with
    currDoorState := OPEN, msStateChange := 4000 }

/-- Door 1 armed for Monday 08:30, standing open. -/
def door1Open : FeedCompart :=
  { door1Monday with
    currDoorState := OPEN, msStateChange := 4000,
    doorServo := { pin := some 9, angle := 90, writes := [90] } }

/-- Door 1 armed for Monday 08:30, in phase CLOSING with the servo back at the
closed angle. -/
def door1Closing : FeedCompart :=
  { door1Monday with
    currDoorState := CLOSING, msStateChange := 200000,
    doorServo := { pin := some 9, angle := 0, writes := [0, 90] } }

/-! ## The opening instant in the words of the spec -/

/-- The instant `openAt` of the spec: "today's date combined with
`triggerHour:triggerMinute:00`", the start of the day of `now` plus
`Hour*3600 + Minute*60` seconds. -/
def openAt (fc : FeedCompart) (now : Nat) : Nat :=
  now / 86400 * 86400 + fc.settings.Hour * 3600 + fc.settings.Minute * 60

/-! ## Checksum of a slot and single-bit corruption -/

/-- The checksum stored in the last four cells of the slot of `fc`. -/
def FeedCompart.storedCrc (fc : FeedCompart) (e : EEPROM) : Nat :=
  e.read (fc.eepromLoc + 4) + 2 ^ 8 * e.read (fc.eepromLoc + 5)
    + 2 ^ 16 * e.read (fc.eepromLoc + 6) + 2 ^ 24 * e.read (fc.eepromLoc + 7)

/-- The EEPROM with bit `k` of cell `a` flipped. -/
def EEPROM.flipBit (e : EEPROM) (a k : Nat) : EEPROM :=
  fun x => if x = a then e.read a ^^^ 2 ^ k else e x

/-- The assumption on the checksum: two four-byte ranges that differ in
exactly one bit have different 32-bit checksums. -/
def DetectsSingleBitFlips (crcOf : List Nat → Nat) : Prop :=
  ∀ (bs : List Nat) (i k : Nat), bs.length = 4 → (∀ b ∈ bs, b < 256) → i < 4 → k < 8 →
    crcOf (bs.set i (bs.getD i 0 ^^^ 2 ^ k)) % 2 ^ 32 ≠ crcOf bs % 2 ^ 32

/-- A checksum that meets the assumption: the bytes read as a base-256 numeral. -/
def base256 (bs : List Nat) : Nat := bs.foldl (fun a b => a * 256 + b) 0

/-- An EEPROM whose first slot holds the record of `door1Monday` followed by
its `base256` checksum. -/
def base256EEPROM : EEPROM := fun a => [1, 30, 8, 2, 2, 8, 30, 1].getD a 255

/-- The EEPROM after `door1Monday` was saved twice to a blank EEPROM. -/
def savedTwiceEEPROM : EEPROM :=
  (door1Monday.saveSettingsToEE eeprom_crc
    (door1Monday.saveSettingsToEE eeprom_crc blankEEPROM).2).2


/-- The cooler enabled, set point 40, filtered temperature so far `t`. -/
def coolerAt (t : ℚ) : ThermoCooler :=
  { ThermoCooler.new 4 EEPROM_COOLER_SETTINGS_LOC { set_temp := 40, crc := 0 } t with
    enabled := true }

/-- The cooler disabled, set point 40, filtered temperature so far 90. -/
def coolerOff : ThermoCooler := ThermoCooler.new 4 EEPROM_COOLER_SETTINGS_LOC
  { set_temp := 40, crc := 0 } 90

/-- Door 1 armed for Monday 08:30, in phase OPENING since `millis()` =
4294967000, shortly before the counter wraps. -/
def door1OpeningLate : FeedCompart :=
  { door1Monday with currDoorState := OPENING, msStateChange := 4294967000 }

/-! ## Range of the schedule fields, and runs of calls -/

/-- The schedule fields are in range: Wday in 1..7, Hour in 0..23, Minute in
0..59. -/
def EECompartSettings.InRange (s : EECompartSettings) : Prop :=
  1 ≤ s.Wday ∧ s.Wday ≤ 7 ∧ s.Hour ≤ 23 ∧ s.Minute ≤ 59

/-- A call made on a door after `begin`: `service()` with the values of
`now()` and `millis()`, or `enable()`. -/
inductive DoorCall where
  | service (curr ms : Nat)
  | enable
deriving DecidableEq, Repr

/-- The effect of one call. -/
def FeedCompart.call (crcOf : List Nat → Nat) (fe : FeedCompart × EEPROM) :
    DoorCall → FeedCompart × EEPROM
  | DoorCall.service curr ms => fe.1.service crcOf fe.2 curr ms
  | DoorCall.enable => fe.1.enable crcOf fe.2

/-- The effect of a sequence of calls, first call first. -/
def FeedCompart.run (crcOf : List Nat → Nat) :
    FeedCompart × EEPROM → List DoorCall → FeedCompart × EEPROM
  | fe, [] => fe
  | fe, c :: cs => FeedCompart.run crcOf (FeedCompart.call crcOf fe c) cs

/-- No `service` call of the run finds the record disabled or another weekday
while the phase is not CLOSED: the schedule gate never cuts a motion short. -/
def FeedCompart.gateSparesMotion (crcOf : List Nat → Nat) :
    FeedCompart × EEPROM → List DoorCall → Prop
  | _, [] => True
  | fe, DoorCall.service curr ms :: cs =>
    ((fe.1.settings.enabled ≠ 0 ∧ weekday curr = fe.1.settings.Wday) ∨
        fe.1.currDoorState = CLOSED) ∧
      FeedCompart.gateSparesMotion crcOf (fe.1.service crcOf fe.2 curr ms) cs
  | fe, DoorCall.enable :: cs =>
    FeedCompart.gateSparesMotion crcOf (fe.1.enable crcOf fe.2) cs

/-- A day of door 1: the trigger at 08:30:00 of Monday 31 October 2016, the
door driven open, and a `service` call on Tuesday. -/
def mondayThenTuesday : List DoorCall :=
  [DoorCall.service 1477902600 1000, DoorCall.service 1477902603 4000,
   DoorCall.service 1477902603 4010, DoorCall.service 1478000000 97404000]

/-- A full cycle of door 1 on Monday 31 October 2016: the trigger at 08:30:00,
the door driven open, the end of the open window at 08:33:00, the door driven
shut. -/
def mondayCycle : List DoorCall :=
  [DoorCall.service 1477902600 1000, DoorCall.service 1477902603 4000,
   DoorCall.service 1477902603 4010, DoorCall.service 1477902780 200000,
   DoorCall.service 1477902783 203000, DoorCall.service 1477902783 203010]
/-! # Lemmas -/

/-! ## TimeLib: `makeTime` after `breakTime` -/

theorem yearLength_pos (Y : Nat) : 365 ≤ yearLength Y ∧ yearLength Y ≤ 366 := by
  unfold yearLength
  split <;> omega

theorem yearStart_mono {a b : Nat} (h : a ≤ b) : yearStart a ≤ yearStart b := by
  induction h with
  | refl => exact Nat.le_refl _
  | step _ ih => exact Nat.le_trans ih (by simp [yearStart])

set_option maxRecDepth 100000 in
theorem yearStart_137 : yearStart 137 = 50038 := by decide

set_option maxRecDepth 100000 in
theorem yearStart_138 : yearStart 138 = 50403 := by decide

/-- The year loop of `breakTime` stops at the year that contains day `d`. -/
theorem breakTime_yearLoop_spec (d : Nat) (hd : d < yearStart 137) :
    ∀ fuel year, year ≤ 137 → 137 ≤ year + fuel → yearStart year ≤ d →
      ∃ y, y ≤ 136 ∧ yearStart y ≤ d ∧ d < yearStart (y + 1) ∧
        breakTime_yearLoop d fuel year (yearStart year) = (y, yearStart (y + 1)) := by
  intro fuel
  induction fuel with
  | zero =>
    intro year h1 h2 h3
    have : year = 137 := by omega
    subst this
    omega
  | succ n ih =>
    intro year h1 h2 h3
    have hm : yearStart (year + 1) ≤ yearStart 138 := yearStart_mono (by omega)
    have h138 := yearStart_138
    have hs : yearStart (year + 1) = yearStart year + yearLength year := rfl
    have e1 : (yearStart year + yearLength year) % 2 ^ 32 = yearStart (year + 1) := by
      rw [hs]; omega
    have e2 : yearStart (year + 1) % 2 ^ 16 = yearStart (year + 1) := by omega
    simp only [breakTime_yearLoop, e1, e2]
    by_cases hc : yearStart (year + 1) ≤ d
    · have hy : year + 1 ≤ 137 := by
        by_contra hcon
        have : year = 137 := by omega
        subst this
        have := yearStart_137
        omega
      have e3 : (year + 1) % 256 = year + 1 := by omega
      rw [if_pos hc, e3]
      exact ih (year + 1) hy (by omega) hc
    · rw [if_neg hc]
      refine ⟨year, ?_, h3, by omega, rfl⟩
      by_contra hcon
      have : year = 137 := by omega
      subst this
      omega

theorem monthLength_le (year m : Nat) : monthLength year m ≤ 31 := by
  unfold monthLength
  split
  · split <;> omega
  · rcases m with _ | _ | _ | _ | _ | _ | _ | _ | _ | _ | _ | _ | m <;> simp [monthDays]

theorem monthStart_twelve (year : Nat) : monthStart year 12 = yearLength year := by
  simp only [monthStart, monthLength, yearLength, monthDays]
  by_cases h : LEAP_YEAR year = true <;> simp [h]

/-- The month loop of `breakTime` stops at the month that contains the day. -/
theorem breakTime_monthLoop_spec (year : Nat) :
    ∀ n month t, month + n = 12 → monthStart year month + t < monthStart year 12 →
      t < 2 ^ 32 →
      ∃ m r, m < 12 ∧ r < monthLength year m ∧
        monthStart year m + r = monthStart year month + t ∧
        breakTime_monthLoop year n month t = (m, r) := by
  intro n
  induction n with
  | zero =>
    intro month t h1 h2 _
    have : month = 12 := by omega
    subst this
    omega
  | succ n ih =>
    intro month t h1 h2 h3
    have hl := monthLength_le year month
    have hs : monthStart year (month + 1) = monthStart year month + monthLength year month := rfl
    simp only [breakTime_monthLoop]
    by_cases hc : t ≥ monthLength year month
    · rw [if_pos hc]
      have e1 : (t + 2 ^ 32 - monthLength year month) % 2 ^ 32 = t - monthLength year month := by
        omega
      rw [e1]
      obtain ⟨m, r, hm, hr, hsum, heq⟩ :=
        ih (month + 1) (t - monthLength year month) (by omega) (by omega) (by omega)
      exact ⟨m, r, hm, hr, by omega, heq⟩
    · rw [if_neg hc]
      exact ⟨month, t, by omega, by omega, rfl, rfl⟩

theorem yearStart_ge (Y : Nat) : 365 * Y ≤ yearStart Y := by
  induction Y with
  | zero => simp [yearStart]
  | succ n ih =>
    have := yearLength_pos n
    simp only [yearStart]
    omega

/-- The leap-day loop of `makeTime` adds one day per leap year before `Y`. -/
theorem makeTime_yearLoop_spec (Y s : Nat) :
    makeTime_yearLoop Y s % 2 ^ 32 = (s + 86400 * (yearStart Y - 365 * Y)) % 2 ^ 32 := by
  induction Y with
  | zero => simp [makeTime_yearLoop, yearStart]
  | succ n ih =>
    have hge := yearStart_ge n
    simp only [makeTime_yearLoop, yearStart, yearLength]
    split <;> omega

/-- The month loop of `makeTime` adds the days of the months before the `k`-th. -/
theorem makeTime_monthLoop_spec (Year k s : Nat) :
    makeTime_monthLoop Year k s % 2 ^ 32 = (s + 86400 * monthStart Year k) % 2 ^ 32 := by
  induction k with
  | zero => simp [makeTime_monthLoop, monthStart]
  | succ n ih =>
    simp only [makeTime_monthLoop, monthStart, monthLength]
    by_cases h1 : n = 1
    · subst h1
      by_cases hl : LEAP_YEAR Year = true
      · simp only [hl, and_self, if_true] at ih ⊢
        omega
      · simp only [hl, and_false, if_false, monthDays, List.getD_cons_succ,
          List.getD_cons_zero] at ih ⊢
        simp at ih ⊢
        omega
    · have h2 : ¬ (n + 1 = 2 ∧ LEAP_YEAR Year = true) := by omega
      rw [if_neg h2, if_neg h1]
      omega

/-- Applying `makeTime` to the broken-down `curr` with its time of day replaced gives the
start of the day of `curr` plus the new time of day, in 32-bit arithmetic. -/
theorem makeTime_breakTime (curr H M S : Nat) (h : curr < 2 ^ 32) :
    makeTime { breakTime curr with Hour := H, Minute := M, Second := S }
      = (curr / 86400 * 86400 + H * 3600 + M * 60 + S) % 2 ^ 32 := by
  have hdiv : curr % 2 ^ 32 / 60 / 60 / 24 = curr / 86400 := by
    rw [Nat.mod_eq_of_lt h, Nat.div_div_eq_div_mul, Nat.div_div_eq_div_mul]
  have h137 := yearStart_137
  have hd : curr / 86400 < yearStart 137 := by omega
  obtain ⟨y, hy, hlo, hhi, hyl⟩ :=
    breakTime_yearLoop_spec (curr / 86400) hd 256 0 (by omega) (by omega) (Nat.zero_le _)
  have hys : yearStart (y + 1) = yearStart y + yearLength y := rfl
  have hyl2 := yearLength_pos y
  have hge := yearStart_ge y
  have hm137 : yearStart (y + 1) ≤ yearStart 137 := yearStart_mono (by omega)
  have e1 : (yearStart (y + 1) + 2 ^ 32 - yearLength y) % 2 ^ 32 = yearStart y := by omega
  have e2 : (curr / 86400 + 2 ^ 32 - yearStart y) % 2 ^ 32 = curr / 86400 - yearStart y := by
    omega
  obtain ⟨m, r, hm, hr, hsum, hml⟩ :=
    breakTime_monthLoop_spec y 12 0 (curr / 86400 - yearStart y) rfl
      (by rw [monthStart_twelve]; simp only [monthStart]; omega) (by omega)
  have hr31 := monthLength_le y m
  have hyear := makeTime_yearLoop_spec y (y * (86400 * 365) % 2 ^ 32)
  have hmonth := makeTime_monthLoop_spec y m
    (makeTime_yearLoop y (y * (86400 * 365) % 2 ^ 32))
  have hms0 : monthStart y 0 = 0 := rfl
  simp only [breakTime, makeTime, hdiv]
  have hyd : breakTime_yearLoop (curr / 86400) 256 0 0 = (y, yearStart (y + 1)) := hyl
  rw [hyd]
  simp only [e1, e2, hml]
  have e3 : (m + 1) % 256 - 1 = m := by omega
  have e4 : ((r + 1) % 256 + 2 ^ 32 - 1) % 2 ^ 32 = r := by omega
  rw [e3, e4]
  omega

/-- TimeLib `weekday`: 1 January 1970 was a Thursday (day 5). -/
theorem weekday_eq (curr : Nat) (h : curr < 2 ^ 32) :
    weekday curr = (curr / 86400 + 4) % 7 + 1 := by
  have hdiv : curr % 2 ^ 32 / 60 / 60 / 24 = curr / 86400 := by
    rw [Nat.mod_eq_of_lt h, Nat.div_div_eq_div_mul, Nat.div_div_eq_div_mul]
  simp only [weekday, breakTime, hdiv]

theorem FeedCompart.setTime_eq (fc : FeedCompart) (curr : Nat) (h : curr < 2 ^ 32) :
    fc.setTime curr
      = (curr / 86400 * 86400 + fc.settings.Hour * 3600 + fc.settings.Minute * 60) % 2 ^ 32 := by
  have := makeTime_breakTime curr fc.settings.Hour fc.settings.Minute 0 h
  simpa [FeedCompart.setTime] using this

/-! ## EEPROM slots -/

theorem range_eight : List.range 8 = [0, 1, 2, 3, 4, 5, 6, 7] := by decide

theorem EECompartSettings.byte_lt (s : EECompartSettings) (i : Nat) : s.byte i < 256 := by
  unfold EECompartSettings.byte
  split <;> omega

/-- After `saveSettingsToEE` the slot holds the bytes of the in-memory struct. -/
theorem FeedCompart.save_read (crcOf : List Nat → Nat) (fc : FeedCompart) (e : EEPROM)
    (i : Nat) (hi : i < 8) :
    (fc.saveSettingsToEE crcOf e).2.read (fc.eepromLoc + i)
      = (fc.saveSettingsToEE crcOf e).1.settings.byte i := by
  simp only [FeedCompart.saveSettingsToEE, FEED_COMPART_EE_SIZE, range_eight, List.foldl,
    EEPROM.write, EEPROM.read]
  generalize ({ fc.settings with crc := fc.generateCrc crcOf e } : EECompartSettings) = s
  have hb := s.byte_lt i
  interval_cases i <;> simp <;> omega

/-- Function `saveSettingsToEE` leaves every cell outside the slot as it was. -/
theorem FeedCompart.save_frame (crcOf : List Nat → Nat) (fc : FeedCompart) (e : EEPROM)
    (a : Nat) (ha : a < fc.eepromLoc ∨ fc.eepromLoc + 8 ≤ a) :
    (fc.saveSettingsToEE crcOf e).2 a = e a := by
  simp only [FeedCompart.saveSettingsToEE, FEED_COMPART_EE_SIZE, range_eight, List.foldl,
    EEPROM.write]
  have h0 : a ≠ fc.eepromLoc := by omega
  have h1 : a ≠ fc.eepromLoc + 1 := by omega
  have h2 : a ≠ fc.eepromLoc + 2 := by omega
  have h3 : a ≠ fc.eepromLoc + 3 := by omega
  have h4 : a ≠ fc.eepromLoc + 4 := by omega
  have h5 : a ≠ fc.eepromLoc + 5 := by omega
  have h6 : a ≠ fc.eepromLoc + 6 := by omega
  have h7 : a ≠ fc.eepromLoc + 7 := by omega
  simp [h0, h1, h2, h3, h4, h5, h6, h7]

theorem FeedCompart.save_fst (crcOf : List Nat → Nat) (fc : FeedCompart) (e : EEPROM) :
    (fc.saveSettingsToEE crcOf e).1
      = { fc with settings := { fc.settings with crc := fc.generateCrc crcOf e } } := rfl

theorem EEGenerateCrc_lt (crcOf : List Nat → Nat) (e : EEPROM) (loc len : Nat) :
    EEGenerateCrc crcOf e loc len < 2 ^ 32 := by
  unfold EEGenerateCrc
  exact Nat.mod_lt _ (by norm_num)

/-- What `loadSettingsFromEE` reads back from a slot just written by
`saveSettingsToEE`, before the fields are clamped. -/
theorem FeedCompart.ofBytes_save (crcOf : List Nat → Nat) (fc : FeedCompart) (e : EEPROM) :
    EECompartSettings.ofBytes (fun i => (fc.saveSettingsToEE crcOf e).2.read (fc.eepromLoc + i))
      = { enabled := fc.settings.enabled % 256, Minute := fc.settings.Minute % 256,
          Hour := fc.settings.Hour % 256, Wday := fc.settings.Wday % 256,
          crc := fc.generateCrc crcOf e } := by
  have hc : fc.generateCrc crcOf e < 2 ^ 32 := EEGenerateCrc_lt _ _ _ _
  simp only [EECompartSettings.ofBytes]
  rw [fc.save_read crcOf e 0 (by omega), fc.save_read crcOf e 1 (by omega),
    fc.save_read crcOf e 2 (by omega), fc.save_read crcOf e 3 (by omega),
    fc.save_read crcOf e 4 (by omega), fc.save_read crcOf e 5 (by omega),
    fc.save_read crcOf e 6 (by omega), fc.save_read crcOf e 7 (by omega)]
  simp only [FeedCompart.save_fst, EECompartSettings.byte, Nat.mod_mod]
  congr 1
  omega

theorem EEPROM.bytes_four (e : EEPROM) (loc : Nat) :
    e.bytes loc 4 = [e.read loc, e.read (loc + 1), e.read (loc + 2), e.read (loc + 3)] := rfl

theorem EEPROM.read_lt (e : EEPROM) (a : Nat) : e.read a < 256 :=
  Nat.mod_lt _ (by norm_num)

theorem xor_two_pow_lt (x k : Nat) (hx : x < 256) (hk : k < 8) : x ^^^ 2 ^ k < 256 := by
  have h2 : 2 ^ k < 2 ^ 8 := Nat.pow_lt_pow_right (by norm_num) hk
  exact Nat.xor_lt_two_pow (n := 8) hx h2

theorem xor_two_pow_ne (x k : Nat) : x ^^^ 2 ^ k ≠ x := by
  intro h
  have h1 : x ^^^ (x ^^^ 2 ^ k) = 2 ^ k := Nat.xor_cancel_left x (2 ^ k)
  rw [h, Nat.xor_self] at h1
  have := Nat.pos_pow_of_pos k (show 0 < 2 by norm_num)
  omega

/-- Function `loadSettingsFromEE` returns true exactly when the stored checksum is the
checksum of the four stored field bytes. -/
theorem FeedCompart.load_valid_iff (crcOf : List Nat → Nat) (fc : FeedCompart) (e : EEPROM) :
    (fc.loadSettingsFromEE crcOf e).2 = true ↔
      fc.storedCrc e = crcOf (e.bytes fc.eepromLoc 4) % 2 ^ 32 := by
  simp only [FeedCompart.loadSettingsFromEE, FeedCompart.generateCrc, EEGenerateCrc,
    EECompartSettings.ofBytes, FeedCompart.storedCrc, FEED_COMPART_EE_SIZE, beq_iff_eq]
  have h4 := e.read_lt (fc.eepromLoc + 4)
  have h5 := e.read_lt (fc.eepromLoc + 5)
  have h6 := e.read_lt (fc.eepromLoc + 6)
  have h7 := e.read_lt (fc.eepromLoc + 7)
  rw [Nat.mod_eq_of_lt h4, Nat.mod_eq_of_lt h5, Nat.mod_eq_of_lt h6, Nat.mod_eq_of_lt h7]
  exact eq_comm

/-- Flipping a bit of a field cell leaves the stored checksum as it was. -/
theorem FeedCompart.storedCrc_flipBit (fc : FeedCompart) (e : EEPROM) (i k : Nat) (hi : i < 4) :
    fc.storedCrc (e.flipBit (fc.eepromLoc + i) k) = fc.storedCrc e := by
  simp only [FeedCompart.storedCrc, EEPROM.flipBit, EEPROM.read]
  rw [if_neg (by omega), if_neg (by omega), if_neg (by omega), if_neg (by omega)]

/-- Flipping a bit of a field cell flips that bit in the range the checksum
is computed over. -/
theorem EEPROM.bytes_flipBit (e : EEPROM) (loc i k : Nat) (hi : i < 4) (hk : k < 8) :
    (e.flipBit (loc + i) k).bytes loc 4
      = (e.bytes loc 4).set i ((e.bytes loc 4).getD i 0 ^^^ 2 ^ k) := by
  have hx := xor_two_pow_lt (e.read (loc + i)) k (e.read_lt _) hk
  have hm : (e.read (loc + i) ^^^ 2 ^ k) % 256 = e.read (loc + i) ^^^ 2 ^ k :=
    Nat.mod_eq_of_lt hx
  simp only [EEPROM.bytes_four]
  interval_cases i <;>
    (try simp only [Nat.add_zero] at hm ⊢) <;>
    simp [EEPROM.flipBit, EEPROM.read] at hm ⊢ <;>
    exact hm

/-- The base-256 numeral tells any two four-byte ranges apart. -/
theorem base256_detects : DetectsSingleBitFlips base256 := by
  intro bs i k hlen hb hi hk
  match bs, hlen with
  | [a, b, c, d], _ =>
    have ha : a < 256 := hb a (by simp)
    have hb' : b < 256 := hb b (by simp)
    have hc : c < 256 := hb c (by simp)
    have hd : d < 256 := hb d (by simp)
    have la := xor_two_pow_lt a k ha hk
    have lb := xor_two_pow_lt b k hb' hk
    have lc := xor_two_pow_lt c k hc hk
    have ld := xor_two_pow_lt d k hd hk
    have na := xor_two_pow_ne a k
    have nb := xor_two_pow_ne b k
    have nc := xor_two_pow_ne c k
    have nd := xor_two_pow_ne d k
    interval_cases i <;> simp [base256] <;> omega

theorem minute_lt (t : Nat) : minute t < 60 := by
  simp only [minute, breakTime]
  omega

theorem hour_lt (t : Nat) : hour t < 24 := by
  simp only [hour, breakTime]
  omega

theorem weekday_range (t : Nat) : 1 ≤ weekday t ∧ weekday t ≤ 7 := by
  simp only [weekday, breakTime]
  omega

/-- The default record that `begin` stores when the load fails. -/
theorem FeedCompart.begin_invalid (crcOf : List Nat → Nat) (fc : FeedCompart) (e : EEPROM)
    (curr : Nat) (h : (fc.loadSettingsFromEE crcOf e).2 = false) :
    (fc.begin crcOf e curr).1.settings
        = { enabled := 0, Minute := minute curr, Hour := hour curr, Wday := weekday curr,
            crc := fc.generateCrc crcOf e } ∧
      (fc.begin crcOf e curr).2
        = (FeedCompart.saveSettingsToEE crcOf
            { fc with settings :=
                { enabled := 0, Minute := minute curr, Hour := hour curr,
                  Wday := weekday curr, crc := (fc.loadSettingsFromEE crcOf e).1.settings.crc } }
            e).2 := by
  simp only [FeedCompart.begin, h]
  exact ⟨rfl, rfl⟩

/-- The load that follows a save returns true exactly when the CRC of the
cells as they were before the save equals the CRC of the saved fields. -/
theorem FeedCompart.load_after_save_valid_iff (crcOf : List Nat → Nat) (fc : FeedCompart)
    (e : EEPROM) :
    ((fc.saveSettingsToEE crcOf e).1.loadSettingsFromEE crcOf
        (fc.saveSettingsToEE crcOf e).2).2 = true ↔
      crcOf (e.bytes fc.eepromLoc 4) % 2 ^ 32
        = crcOf [fc.settings.enabled % 256, fc.settings.Minute % 256,
            fc.settings.Hour % 256, fc.settings.Wday % 256] % 2 ^ 32 := by
  have hloc : (fc.saveSettingsToEE crcOf e).1.eepromLoc = fc.eepromLoc := rfl
  have hc : fc.generateCrc crcOf e < 2 ^ 32 := EEGenerateCrc_lt _ _ _ _
  have hg : fc.generateCrc crcOf e = crcOf (e.bytes fc.eepromLoc 4) % 2 ^ 32 := rfl
  rw [FeedCompart.load_valid_iff, hloc, EEPROM.bytes_four]
  simp only [FeedCompart.storedCrc, hloc]
  have h0 := fc.save_read crcOf e 0 (by omega)
  rw [Nat.add_zero] at h0
  rw [h0, fc.save_read crcOf e 1 (by omega),
    fc.save_read crcOf e 2 (by omega), fc.save_read crcOf e 3 (by omega),
    fc.save_read crcOf e 4 (by omega), fc.save_read crcOf e 5 (by omega),
    fc.save_read crcOf e 6 (by omega), fc.save_read crcOf e 7 (by omega)]
  simp only [FeedCompart.save_fst, EECompartSettings.byte]
  have hsum : fc.generateCrc crcOf e % 256 + 2 ^ 8 * (fc.generateCrc crcOf e / 2 ^ 8 % 256)
      + 2 ^ 16 * (fc.generateCrc crcOf e / 2 ^ 16 % 256)
      + 2 ^ 24 * (fc.generateCrc crcOf e / 2 ^ 24 % 256) = fc.generateCrc crcOf e := by
    omega
  rw [hsum, hg]

/-- The copy loop of the cooler writes the set point to cell 0, wherever the
slot of the cooler is. -/
theorem ThermoCooler.setTemp_cell_zero (crcOf : List Nat → Nat) (tc : ThermoCooler)
    (e : EEPROM) (temp : Int) :
    (tc.setTemp crcOf e temp).2.read 0 = (toInt16 temp % 2 ^ 16).toNat % 256 := by
  simp [ThermoCooler.setTemp, ThermoCooler.saveSettingsToEE, THERMO_COOLER_EE_SIZE,
    List.range_succ, EEPROM.write, EEPROM.read, ThermoCoolerSettings.byte]

/-- The copy loop of the cooler leaves the cells from `THERMO_COOLER_EE_SIZE`
on as they were. -/
theorem ThermoCooler.setTemp_frame (crcOf : List Nat → Nat) (tc : ThermoCooler)
    (e : EEPROM) (temp : Int) (a : Nat) (ha : THERMO_COOLER_EE_SIZE ≤ a) :
    (tc.setTemp crcOf e temp).2 a = e a := by
  simp only [THERMO_COOLER_EE_SIZE] at ha
  have h0 : a ≠ 0 := by omega
  have h1 : a ≠ 1 := by omega
  have h2 : a ≠ 2 := by omega
  have h3 : a ≠ 3 := by omega
  have h4 : a ≠ 4 := by omega
  have h5 : a ≠ 5 := by omega
  simp [ThermoCooler.setTemp, ThermoCooler.saveSettingsToEE, THERMO_COOLER_EE_SIZE,
    List.range_succ, EEPROM.write, h0, h1, h2, h3, h4, h5]

/-! ## `service` -/

/-- With the record disabled or on another weekday, `service` only sets the
phase to CLOSED. -/
theorem FeedCompart.service_gate_closed (crcOf : List Nat → Nat) (fc : FeedCompart)
    (e : EEPROM) (curr ms : Nat)
    (h : fc.settings.enabled = 0 ∨ weekday curr ≠ fc.settings.Wday) :
    fc.service crcOf e curr ms = ({ fc with currDoorState := CLOSED }, e) := by
  unfold FeedCompart.service
  rw [if_neg]
  rintro ⟨h1, h2⟩
  rcases h with h | h
  · exact h1 h
  · exact h h2

/-- Once the record is disabled and the phase CLOSED, `service` calls change
nothing. -/
theorem FeedCompart.serviceRun_disabled (crcOf : List Nat → Nat) (ts : List (Nat × Nat)) :
    ∀ (fc : FeedCompart) (e : EEPROM), fc.settings.enabled = 0 → fc.currDoorState = CLOSED →
      FeedCompart.serviceRun crcOf (fc, e) ts = (fc, e) := by
  induction ts with
  | nil => intro fc e _ _; rfl
  | cons t ts ih =>
    intro fc e hen hph
    simp only [FeedCompart.serviceRun]
    rw [fc.service_gate_closed crcOf e t.1 t.2 (Or.inl hen)]
    have hfc : ({ fc with currDoorState := CLOSED } : FeedCompart) = fc := by
      cases fc
      simp only at hph
      subst hph
      rfl
    rw [hfc]
    exact ih fc e hen hph

/-! ## The control loop of the cooler -/

theorem round_of_nonneg (x : ℚ) (h : 0 ≤ x) : round x = ⌊x + 1 / 2⌋ := by
  have h1 : x ≥ 0 := h
  have h2 : (0 : ℚ) ≤ x + 1 / 2 := by linarith
  simp only [round, toLong, h1, h2, if_true]

theorem round_of_neg (x : ℚ) (h : x < 0) : round x = ⌈x - 1 / 2⌉ := by
  have h1 : ¬ (x ≥ 0) := not_le.mpr h
  have h2 : ¬ ((0 : ℚ) ≤ x - 1 / 2) := by
    intro hc
    linarith
  simp only [round, toLong, h1, h2, if_false]

/-- Arduino `round` is monotone. -/
theorem round_mono {x y : ℚ} (h : x ≤ y) : round x ≤ round y := by
  by_cases hx : 0 ≤ x
  · have hy : 0 ≤ y := le_trans hx h
    rw [round_of_nonneg x hx, round_of_nonneg y hy]
    exact Int.floor_mono (by linarith)
  · have hx' : x < 0 := not_le.mp hx
    rw [round_of_neg x hx']
    by_cases hy : 0 ≤ y
    · rw [round_of_nonneg y hy]
      have h1 : ⌈x - 1 / 2⌉ ≤ 0 := by
        rw [Int.ceil_le]
        push_cast
        linarith
      have h2 : (0 : Int) ≤ ⌊y + 1 / 2⌋ := by
        rw [Int.le_floor]
        push_cast
        linarith
      exact le_trans h1 h2
    · have hy' : y < 0 := not_le.mp hy
      rw [round_of_neg y hy']
      exact Int.ceil_mono (by linarith)

/-- Arduino `round` fixes the integers. -/
theorem round_intCast (z : Int) : round (z : ℚ) = z := by
  by_cases hz : (0 : ℚ) ≤ (z : ℚ)
  · rw [round_of_nonneg _ hz, Int.floor_eq_iff]
    constructor <;> linarith
  · have hz' : (z : ℚ) < 0 := not_le.mp hz
    rw [round_of_neg _ hz', Int.ceil_eq_iff]
    constructor <;> linarith

theorem toLong_intCast (z : Int) : toLong (z : ℚ) = z := by
  unfold toLong
  split <;> simp

/-- The drive value of the proportional branch lies in 1..255. -/
theorem round_drive_bounds (x : ℚ) (h1 : 1 < x) (h2 : x ≤ 255) :
    1 ≤ round x ∧ round x ≤ 255 := by
  have a := round_mono (le_of_lt h1)
  have b := round_mono h2
  have e1 : round (1 : ℚ) = 1 := by simpa using round_intCast 1
  have e2 : round (255 : ℚ) = 255 := by simpa using round_intCast 255
  rw [e1] at a
  rw [e2] at b
  exact ⟨a, b⟩

/-- The percentage of a drive value in 0..255 lies in 0..100. -/
theorem round_percent_bounds (p : Int) (h1 : 0 ≤ p) (h2 : p ≤ 255) :
    0 ≤ round (((p : ℚ) * 100) / 255) ∧ round (((p : ℚ) * 100) / 255) ≤ 100 := by
  have hp1 : (0 : ℚ) ≤ (p : ℚ) := by exact_mod_cast h1
  have hp2 : (p : ℚ) ≤ 255 := by exact_mod_cast h2
  have a : round (0 : ℚ) ≤ round (((p : ℚ) * 100) / 255) :=
    round_mono (by positivity)
  have b : round (((p : ℚ) * 100) / 255) ≤ round (100 : ℚ) :=
    round_mono (by rw [div_le_iff₀ (by norm_num)]; linarith)
  have e1 : round (0 : ℚ) = 0 := by simpa using round_intCast 0
  have e2 : round (100 : ℚ) = 100 := by simpa using round_intCast 100
  rw [e1] at a
  rw [e2] at b
  exact ⟨a, b⟩

theorem round_percent_128 : round (((128 : ℚ) * 100) / 255) = 50 := by
  rw [round_of_nonneg _ (by norm_num), Int.floor_eq_iff]
  constructor <;> norm_num

theorem toUInt16_of_range (z : Int) (h1 : 0 ≤ z) (h2 : z ≤ 100) : toUInt16 z = z.toNat := by
  unfold toUInt16
  have : z % 2 ^ 16 = z := Int.emod_eq_of_lt h1 (by omega)
  rw [this]

theorem toInt16_of_range (z : Int) (h1 : 1 ≤ z) (h2 : z ≤ 255) : toInt16 z = z := by
  unfold toInt16
  omega

/-- What `service` does when the cooler is disabled. -/
theorem ThermoCooler.service_disabled (BAND : ℚ) (tc : ThermoCooler) (sample : ℚ)
    (h : tc.enabled = false) :
    tc.service BAND sample
      = ({ tc with pwmPercent := 0, last_temp := (sample + tc.last_temp) / 2 },
          PinWrite.digitalWrite tc.pin 0) := by
  simp [ThermoCooler.service, h]

/-- What `service` does above the band. -/
theorem ThermoCooler.service_above (BAND : ℚ) (tc : ThermoCooler) (sample : ℚ)
    (he : tc.enabled = true) (h : (sample + tc.last_temp) / 2 > tc.settings.set_temp + BAND) :
    tc.service BAND sample
      = ({ tc with pwmPercent := 100, last_temp := (sample + tc.last_temp) / 2 },
          PinWrite.digitalWrite tc.pin 1) := by
  simp [ThermoCooler.service, he, h]

/-- What `service` does at or below the lower end of the band. -/
theorem ThermoCooler.service_below (BAND : ℚ) (tc : ThermoCooler) (sample : ℚ)
    (he : tc.enabled = true) (hB : 0 < BAND)
    (h : (sample + tc.last_temp) / 2 ≤ tc.settings.set_temp - BAND) :
    tc.service BAND sample
      = ({ tc with pwmPercent := 0, last_temp := (sample + tc.last_temp) / 2 },
          PinWrite.digitalWrite tc.pin 0) := by
  have h1 : ¬ ((sample + tc.last_temp) / 2 > tc.settings.set_temp + BAND) := by
    intro hc
    linarith
  have h2 : ¬ ((sample + tc.last_temp) / 2 > tc.settings.set_temp - BAND) := not_lt.mpr h
  simp only [ThermoCooler.service, he, h1, h2]
  simp

/-- What `service` does inside the band. -/
theorem ThermoCooler.service_band (BAND : ℚ) (tc : ThermoCooler) (sample : ℚ)
    (he : tc.enabled = true)
    (h1 : (sample + tc.last_temp) / 2 ≤ tc.settings.set_temp + BAND)
    (h2 : (sample + tc.last_temp) / 2 > tc.settings.set_temp - BAND) :
    tc.service BAND sample
      = ({ tc with
            pwmPercent := toUInt16 (round (((round (128 + (127 *
              ((sample + tc.last_temp) / 2 - tc.settings.set_temp)) / BAND) : ℚ) * 100) / 255)),
            last_temp := (sample + tc.last_temp) / 2 },
          PinWrite.analogWrite tc.pin (toInt16 (toLong (round (128 + (127 *
              ((sample + tc.last_temp) / 2 - tc.settings.set_temp)) / BAND) : ℚ)))) := by
  have h1' : ¬ ((sample + tc.last_temp) / 2 > tc.settings.set_temp + BAND) := not_lt.mpr h1
  simp only [ThermoCooler.service, he, h1', h2]
  simp

/-- Inside the band the argument of the first `round` lies in (1, 255]. -/
theorem drive_arg_bounds (BAND c s : ℚ) (hB : 0 < BAND) (h1 : c ≤ s + BAND) (h2 : c > s - BAND) :
    1 < 128 + (127 * (c - s)) / BAND ∧ 128 + (127 * (c - s)) / BAND ≤ 255 := by
  have e : 128 + (127 * (c - s)) / BAND = 128 + 127 * ((c - s) / BAND) := by ring
  have a : -1 < (c - s) / BAND := by
    rw [lt_div_iff₀ hB]
    linarith
  have b : (c - s) / BAND ≤ 1 := by
    rw [div_le_iff₀ hB]
    linarith
  rw [e]
  constructor <;> linarith


/-- Inside the band the duty is the rounded percentage, between 0 and 100. -/
theorem band_duty (BAND c s : ℚ) (hB : 0 < BAND) (h1 : c ≤ s + BAND) (h2 : c > s - BAND) :
    toUInt16 (round (((round (128 + (127 * (c - s)) / BAND) : ℚ) * 100) / 255))
        = (round (((round (128 + (127 * (c - s)) / BAND) : ℚ) * 100) / 255)).toNat ∧
      0 ≤ round (((round (128 + (127 * (c - s)) / BAND) : ℚ) * 100) / 255) ∧
      round (((round (128 + (127 * (c - s)) / BAND) : ℚ) * 100) / 255) ≤ 100 := by
  obtain ⟨a1, a2⟩ := drive_arg_bounds BAND c s hB h1 h2
  obtain ⟨b1, b2⟩ := round_drive_bounds _ a1 a2
  obtain ⟨c1, c2⟩ := round_percent_bounds _ (by omega) b2
  exact ⟨toUInt16_of_range _ c1 c2, c1, c2⟩

/-- Inside the band the duty does not decrease with the temperature. -/
theorem band_duty_mono (BAND a b s : ℚ) (hB : 0 < BAND) (h : a ≤ b) :
    round (((round (128 + (127 * (a - s)) / BAND) : ℚ) * 100) / 255)
      ≤ round (((round (128 + (127 * (b - s)) / BAND) : ℚ) * 100) / 255) := by
  have h1 : 128 + (127 * (a - s)) / BAND ≤ 128 + (127 * (b - s)) / BAND := by
    have : (127 * (a - s)) / BAND ≤ (127 * (b - s)) / BAND :=
      div_le_div_of_nonneg_right (by linarith) (le_of_lt hB)
    linarith
  have h2 : ((round (128 + (127 * (a - s)) / BAND) : Int) : ℚ)
      ≤ ((round (128 + (127 * (b - s)) / BAND) : Int) : ℚ) := by
    exact_mod_cast round_mono h1
  apply round_mono
  apply div_le_div_of_nonneg_right _ (by norm_num)
  linarith

/-- The filtered temperature after `service`. -/
theorem ThermoCooler.service_last_temp (BAND : ℚ) (tc : ThermoCooler) (sample : ℚ) :
    (tc.service BAND sample).1.last_temp = (sample + tc.last_temp) / 2 := rfl

/-! ## Door motion and runs -/

/-- Arduino `map` from 0..3000 onto the span between two servo angles: no
`long` operation leaves its range, and the result lies between the angles. -/
theorem map_door (t c o : Int) (ht0 : 0 ≤ t) (ht : t ≤ 3000) (hc0 : 0 ≤ c) (hc : c ≤ 180)
    (ho0 : 0 ≤ o) (ho : o ≤ 180) :
    map t 0 3000 c o = c + Int.tdiv ((o - c) * t) 3000 ∧
      min c o ≤ c + Int.tdiv ((o - c) * t) 3000 ∧
      c + Int.tdiv ((o - c) * t) 3000 ≤ max c o := by
  have hcomm : t * (o - c) = (o - c) * t := Int.mul_comm _ _
  have e1 : toInt32 (t - 0) = t := by unfold toInt32; omega
  have e2 : toInt32 (o - c) = o - c := by unfold toInt32; omega
  have e3 : toInt32 (3000 - 0) = 3000 := by decide
  by_cases hD : 0 ≤ o - c
  · have hp0 : 0 ≤ (o - c) * t := Int.mul_nonneg hD ht0
    have hp1 : (o - c) * t ≤ (o - c) * 3000 := Int.mul_le_mul_of_nonneg_left ht hD
    have hdiv : Int.tdiv ((o - c) * t) 3000 = (o - c) * t / 3000 :=
      Int.tdiv_eq_ediv hp0 (by norm_num)
    have e4 : toInt32 ((o - c) * t) = (o - c) * t := by unfold toInt32; omega
    have e5 : toInt32 ((o - c) * t / 3000 + c) = (o - c) * t / 3000 + c := by
      unfold toInt32; omega
    simp only [map, e1, e2, e3, hcomm, e4, hdiv, e5]
    refine ⟨by omega, ?_, ?_⟩
    · rw [min_def]; split <;> omega
    · rw [max_def]; split <;> omega
  · have hD' : 0 ≤ c - o := by omega
    have hq0 : 0 ≤ (c - o) * t := Int.mul_nonneg hD' ht0
    have hq1 : (c - o) * t ≤ (c - o) * 3000 := Int.mul_le_mul_of_nonneg_left ht hD'
    have hneg : (o - c) * t = -((c - o) * t) := by ring
    have hdiv : Int.tdiv ((o - c) * t) 3000 = -((c - o) * t / 3000) := by
      rw [hneg, Int.neg_tdiv, Int.tdiv_eq_ediv hq0 (by norm_num)]
    have e4 : toInt32 ((o - c) * t) = (o - c) * t := by
      rw [hneg]; unfold toInt32; omega
    have e5 : toInt32 (-((c - o) * t / 3000) + c) = -((c - o) * t / 3000) + c := by
      unfold toInt32; omega
    simp only [map, e1, e2, e3, hcomm, e4, hdiv, e5]
    refine ⟨by omega, ?_, ?_⟩
    · rw [min_def]; split <;> omega
    · rw [max_def]; split <;> omega

theorem DoorState.cases_eq (s : DoorState) :
    s = CLOSED ∨ s = OPENING ∨ s = OPEN ∨ s = CLOSING := by
  cases s <;> simp

/-- The `write` of phase OPENING. -/
theorem FeedCompart.service_opening_write (crcOf : List Nat → Nat) (fc : FeedCompart)
    (e : EEPROM) (curr ms : Nat) (hen : fc.settings.enabled ≠ 0)
    (hw : weekday curr = fc.settings.Wday) (hphase : fc.currDoorState = OPENING)
    (hread : fc.doorServo.read ≠ fc.openDeg) :
    fc.service crcOf e curr ms
      = ({ fc with doorServo :=
            fc.doorServo.write (map (fc.elapsed ms) 0 DOOR_SPEED fc.closeDeg fc.openDeg) }, e) := by
  unfold FeedCompart.service
  rw [if_pos ⟨hen, hw⟩]
  simp only [hphase]
  rw [if_pos hread]

/-- The `write` of phase CLOSING. -/
theorem FeedCompart.service_closing_write (crcOf : List Nat → Nat) (fc : FeedCompart)
    (e : EEPROM) (curr ms : Nat) (hen : fc.settings.enabled ≠ 0)
    (hw : weekday curr = fc.settings.Wday) (hphase : fc.currDoorState = CLOSING)
    (hread : fc.doorServo.read ≠ fc.closeDeg) :
    fc.service crcOf e curr ms
      = ({ fc with doorServo :=
            fc.doorServo.write (map (fc.elapsed ms) 0 DOOR_SPEED fc.openDeg fc.closeDeg) }, e) := by
  unfold FeedCompart.service
  rw [if_pos ⟨hen, hw⟩]
  simp only [hphase]
  rw [if_pos hread]

/-- Phase OPENING ends when the servo reads openDeg. -/
theorem FeedCompart.service_opening_done (crcOf : List Nat → Nat) (fc : FeedCompart)
    (e : EEPROM) (curr ms : Nat) (hen : fc.settings.enabled ≠ 0)
    (hw : weekday curr = fc.settings.Wday) (hphase : fc.currDoorState = OPENING)
    (hread : ¬ fc.doorServo.read ≠ fc.openDeg) :
    fc.service crcOf e curr ms = ({ fc with msStateChange := ms, currDoorState := OPEN }, e) := by
  unfold FeedCompart.service
  rw [if_pos ⟨hen, hw⟩]
  simp only [hphase]
  rw [if_neg hread]

/-- Phase CLOSING ends when the servo reads closeDeg: the record is disabled
and saved. -/
theorem FeedCompart.service_closing_done (crcOf : List Nat → Nat) (fc : FeedCompart)
    (e : EEPROM) (curr ms : Nat) (hen : fc.settings.enabled ≠ 0)
    (hw : weekday curr = fc.settings.Wday) (hphase : fc.currDoorState = CLOSING)
    (hread : ¬ fc.doorServo.read ≠ fc.closeDeg) :
    fc.service crcOf e curr ms
      = FeedCompart.saveSettingsToEE crcOf
          { fc with msStateChange := ms, currDoorState := CLOSED,
                    settings := { fc.settings with enabled := 0 } } e := by
  unfold FeedCompart.service
  rw [if_pos ⟨hen, hw⟩]
  simp only [hphase]
  rw [if_neg hread]

/-- Phase CLOSED with the gate open: the door starts to open or nothing
changes. -/
theorem FeedCompart.service_closed (crcOf : List Nat → Nat) (fc : FeedCompart)
    (e : EEPROM) (curr ms : Nat) (hen : fc.settings.enabled ≠ 0)
    (hw : weekday curr = fc.settings.Wday) (hphase : fc.currDoorState = CLOSED) :
    fc.service crcOf e curr ms
        = ({ fc with msStateChange := ms, currDoorState := OPENING }, e) ∨
      fc.service crcOf e curr ms = (fc, e) := by
  unfold FeedCompart.service
  rw [if_pos ⟨hen, hw⟩]
  simp only [hphase]
  generalize fc.setTime curr = set
  by_cases hc : curr ≥ set ∧ curr < (set + 60 * DOOR_OPEN_TIME) % 2 ^ 32
  · rw [if_pos hc]
    exact Or.inl rfl
  · rw [if_neg hc]
    exact Or.inr rfl

/-- Phase OPEN with the gate open: the door starts to close or nothing
changes. -/
theorem FeedCompart.service_open (crcOf : List Nat → Nat) (fc : FeedCompart)
    (e : EEPROM) (curr ms : Nat) (hen : fc.settings.enabled ≠ 0)
    (hw : weekday curr = fc.settings.Wday) (hphase : fc.currDoorState = OPEN) :
    fc.service crcOf e curr ms
        = ({ fc with msStateChange := ms, currDoorState := CLOSING }, e) ∨
      fc.service crcOf e curr ms = (fc, e) := by
  unfold FeedCompart.service
  rw [if_pos ⟨hen, hw⟩]
  simp only [hphase]
  generalize fc.setTime curr = set
  by_cases hc : curr ≥ (set + 60 * DOOR_OPEN_TIME) % 2 ^ 32
  · rw [if_pos hc]
    exact Or.inl rfl
  · rw [if_neg hc]
    exact Or.inr rfl

/-- Method `saveSettingsToEE` changes the `crc` of the record and nothing else
of the object. -/
theorem FeedCompart.save_fields (crcOf : List Nat → Nat) (fc : FeedCompart) (e : EEPROM) :
    (fc.saveSettingsToEE crcOf e).1.settings.enabled = fc.settings.enabled ∧
      (fc.saveSettingsToEE crcOf e).1.settings.Minute = fc.settings.Minute ∧
      (fc.saveSettingsToEE crcOf e).1.settings.Hour = fc.settings.Hour ∧
      (fc.saveSettingsToEE crcOf e).1.settings.Wday = fc.settings.Wday ∧
      (fc.saveSettingsToEE crcOf e).1.doorServo = fc.doorServo ∧
      (fc.saveSettingsToEE crcOf e).1.currDoorState = fc.currDoorState ∧
      (fc.saveSettingsToEE crcOf e).1.closeDeg = fc.closeDeg :=
  ⟨rfl, rfl, rfl, rfl, rfl, rfl, rfl⟩


/-- The shapes of the result of `service`: a `write` to the servo in a phase
other than CLOSED, a change of phase to a phase other than CLOSED, no change,
the end of phase CLOSING, or the phase forced to CLOSED by the gate. -/
theorem FeedCompart.service_cases (crcOf : List Nat → Nat) (fc : FeedCompart) (e : EEPROM)
    (curr ms : Nat) :
    (∃ w : Servo, fc.currDoorState ≠ CLOSED ∧
        fc.service crcOf e curr ms = ({ fc with doorServo := w }, e)) ∨
      (∃ (m : Nat) (st : DoorState), st ≠ CLOSED ∧
        fc.service crcOf e curr ms = ({ fc with msStateChange := m, currDoorState := st }, e)) ∨
      fc.service crcOf e curr ms = (fc, e) ∨
      (fc.doorServo.read = fc.closeDeg ∧
        fc.service crcOf e curr ms
          = FeedCompart.saveSettingsToEE crcOf
              { fc with msStateChange := ms, currDoorState := CLOSED,
                        settings := { fc.settings with enabled := 0 } } e) ∨
      ((fc.settings.enabled = 0 ∨ weekday curr ≠ fc.settings.Wday) ∧
        fc.service crcOf e curr ms = ({ fc with currDoorState := CLOSED }, e)) := by
  by_cases hen : fc.settings.enabled = 0
  · exact Or.inr (Or.inr (Or.inr (Or.inr
      ⟨Or.inl hen, fc.service_gate_closed crcOf e curr ms (Or.inl hen)⟩)))
  by_cases hw : weekday curr = fc.settings.Wday
  swap
  · exact Or.inr (Or.inr (Or.inr (Or.inr
      ⟨Or.inr hw, fc.service_gate_closed crcOf e curr ms (Or.inr hw)⟩)))
  rcases DoorState.cases_eq fc.currDoorState with hp | hp | hp | hp
  · rcases fc.service_closed crcOf e curr ms hen hw hp with h | h
    · exact Or.inr (Or.inl ⟨ms, OPENING, by decide, h⟩)
    · exact Or.inr (Or.inr (Or.inl h))
  · by_cases hr : fc.doorServo.read ≠ fc.openDeg
    · exact Or.inl ⟨_, by rw [hp]; decide, fc.service_opening_write crcOf e curr ms hen hw hp hr⟩
    · exact Or.inr (Or.inl ⟨ms, OPEN, by decide,
        fc.service_opening_done crcOf e curr ms hen hw hp hr⟩)
  · rcases fc.service_open crcOf e curr ms hen hw hp with h | h
    · exact Or.inr (Or.inl ⟨ms, CLOSING, by decide, h⟩)
    · exact Or.inr (Or.inr (Or.inl h))
  · by_cases hr : fc.doorServo.read ≠ fc.closeDeg
    · exact Or.inl ⟨_, by rw [hp]; decide, fc.service_closing_write crcOf e curr ms hen hw hp hr⟩
    · exact Or.inr (Or.inr (Or.inr (Or.inl
        ⟨not_not.mp hr, fc.service_closing_done crcOf e curr ms hen hw hp hr⟩)))

/-- Method `service` leaves Minute, Hour, Wday and closeDeg as they are. -/
theorem FeedCompart.service_fields (crcOf : List Nat → Nat) (fc : FeedCompart) (e : EEPROM)
    (curr ms : Nat) :
    (fc.service crcOf e curr ms).1.settings.Minute = fc.settings.Minute ∧
      (fc.service crcOf e curr ms).1.settings.Hour = fc.settings.Hour ∧
      (fc.service crcOf e curr ms).1.settings.Wday = fc.settings.Wday ∧
      (fc.service crcOf e curr ms).1.closeDeg = fc.closeDeg := by
  rcases fc.service_cases crcOf e curr ms with
    ⟨w, _, h⟩ | ⟨m, st, _, h⟩ | h | ⟨_, h⟩ | ⟨_, h⟩ <;>
  · rw [h]
    exact ⟨rfl, rfl, rfl, rfl⟩

/-- Method `loadSettingsFromEE` leaves the schedule fields in range. -/
theorem FeedCompart.load_inRange (crcOf : List Nat → Nat) (fc : FeedCompart) (e : EEPROM) :
    (fc.loadSettingsFromEE crcOf e).1.settings.InRange := by
  simp only [FeedCompart.loadSettingsFromEE, EECompartSettings.InRange, constrain]
  refine ⟨?_, ?_, ?_, ?_⟩
  · split_ifs <;> omega
  · split_ifs <;> omega
  · split_ifs <;> omega
  · split_ifs <;> omega

/-- Method `begin` leaves the schedule fields in range. -/
theorem FeedCompart.begin_inRange (crcOf : List Nat → Nat) (fc : FeedCompart) (e : EEPROM)
    (curr : Nat) : (fc.begin crcOf e curr).1.settings.InRange := by
  cases h : (fc.loadSettingsFromEE crcOf e).2 with
  | false =>
    rw [(fc.begin_invalid crcOf e curr h).1]
    have hm := minute_lt curr
    have hh := hour_lt curr
    have hw := weekday_range curr
    exact ⟨hw.1, hw.2, by show hour curr ≤ 23; omega, by show minute curr ≤ 59; omega⟩
  | true =>
    have hl := fc.load_inRange crcOf e
    simp only [FeedCompart.begin, h]
    exact hl

/-- Every call leaves schedule fields that are in range in range. -/
theorem FeedCompart.call_inRange (crcOf : List Nat → Nat) (fe : FeedCompart × EEPROM)
    (c : DoorCall) (h : fe.1.settings.InRange) :
    (FeedCompart.call crcOf fe c).1.settings.InRange := by
  cases c with
  | service curr ms =>
    obtain ⟨h1, h2, h3, _⟩ := fe.1.service_fields crcOf fe.2 curr ms
    simp only [FeedCompart.call, EECompartSettings.InRange, h1, h2, h3]
    exact h
  | enable => exact h

/-- Every run of calls leaves schedule fields that are in range in range. -/
theorem FeedCompart.run_inRange (crcOf : List Nat → Nat) (cs : List DoorCall) :
    ∀ fe : FeedCompart × EEPROM, fe.1.settings.InRange →
      (FeedCompart.run crcOf fe cs).1.settings.InRange := by
  induction cs with
  | nil => intro fe h; exact h
  | cons c cs ih =>
    intro fe h
    exact ih _ (FeedCompart.call_inRange crcOf fe c h)

/-- Writing an angle of 0..180 to the servo: the read-back is that angle. -/
theorem Servo.read_write (s : Servo) (c : Nat) (h : c ≤ 180) : (s.write (c : Int)).read = c := by
  have e : toInt16 (c : Int) = (c : Int) := by unfold toInt16; omega
  simp only [Servo.write, Servo.read, e]
  split_ifs <;> omega

/-- Method `begin` touches neither the phase nor closeDeg, and leaves the servo
attached with closeDeg written. -/
theorem FeedCompart.begin_servo (crcOf : List Nat → Nat) (fc : FeedCompart) (e : EEPROM)
    (curr : Nat) :
    (fc.begin crcOf e curr).1.currDoorState = fc.currDoorState ∧
      (fc.begin crcOf e curr).1.closeDeg = fc.closeDeg ∧
      (fc.begin crcOf e curr).1.doorServo
        = (fc.doorServo.attach fc.servoPin).write (fc.closeDeg : Int) := by
  cases h : (fc.loadSettingsFromEE crcOf e).2 <;>
    simp only [FeedCompart.begin, h] <;> exact ⟨rfl, rfl, rfl⟩

/-- One call, made with the gate open or in phase CLOSED, keeps: closeDeg is
unchanged and in phase CLOSED the servo reads closeDeg. -/
theorem FeedCompart.call_closed_inv (crcOf : List Nat → Nat) (fe : FeedCompart × EEPROM)
    (c : DoorCall) (cd : Nat)
    (hgate : ∀ curr ms, c = DoorCall.service curr ms →
      (fe.1.settings.enabled ≠ 0 ∧ weekday curr = fe.1.settings.Wday) ∨
        fe.1.currDoorState = CLOSED)
    (hcd : fe.1.closeDeg = cd)
    (hinv : fe.1.currDoorState = CLOSED → fe.1.doorServo.read = cd) :
    (FeedCompart.call crcOf fe c).1.closeDeg = cd ∧
      ((FeedCompart.call crcOf fe c).1.currDoorState = CLOSED →
        (FeedCompart.call crcOf fe c).1.doorServo.read = cd) := by
  cases c with
  | enable => exact ⟨hcd, hinv⟩
  | service curr ms =>
    have hg := hgate curr ms rfl
    simp only [FeedCompart.call]
    rcases fe.1.service_cases crcOf fe.2 curr ms with
      ⟨w, hne, h⟩ | ⟨m, st, hst, h⟩ | h | ⟨hr, h⟩ | ⟨hclosed, h⟩
    · rw [h]
      exact ⟨hcd, fun hc => absurd hc hne⟩
    · rw [h]
      exact ⟨hcd, fun hc => absurd hc hst⟩
    · rw [h]
      exact ⟨hcd, hinv⟩
    · rw [h]
      exact ⟨hcd, fun _ => hr.trans hcd⟩
    · rw [h]
      refine ⟨hcd, fun _ => ?_⟩
      rcases hg with ⟨h1, h2⟩ | h3
      · rcases hclosed with h0 | hw
        · exact absurd h0 h1
        · exact absurd h2 hw
      · exact hinv h3

/-- A run of calls in which the gate never cuts a motion short keeps: closeDeg
is unchanged and in phase CLOSED the servo reads closeDeg. -/
theorem FeedCompart.run_closed_inv (crcOf : List Nat → Nat) (cd : Nat) (cs : List DoorCall) :
    ∀ fe : FeedCompart × EEPROM, FeedCompart.gateSparesMotion crcOf fe cs →
      fe.1.closeDeg = cd → (fe.1.currDoorState = CLOSED → fe.1.doorServo.read = cd) →
      (FeedCompart.run crcOf fe cs).1.closeDeg = cd ∧
        ((FeedCompart.run crcOf fe cs).1.currDoorState = CLOSED →
          (FeedCompart.run crcOf fe cs).1.doorServo.read = cd) := by
  induction cs with
  | nil => intro fe _ hcd hinv; exact ⟨hcd, hinv⟩
  | cons c cs ih =>
    intro fe hg hcd hinv
    cases c with
    | service curr ms =>
      obtain ⟨hg1, hg2⟩ := hg
      obtain ⟨a, b⟩ := FeedCompart.call_closed_inv crcOf fe (DoorCall.service curr ms) cd
        (fun curr2 ms2 heq => by cases heq; exact hg1) hcd hinv
      exact ih _ hg2 a b
    | enable =>
      obtain ⟨a, b⟩ := FeedCompart.call_closed_inv crcOf fe DoorCall.enable cd
        (fun curr2 ms2 heq => by cases heq) hcd hinv
      exact ih _ hg a b

/-- The four field cells of the slot after `saveSettingsToEE`. -/
theorem FeedCompart.save_bytes (crcOf : List Nat → Nat) (fc : FeedCompart) (e : EEPROM) :
    (fc.saveSettingsToEE crcOf e).2.bytes fc.eepromLoc 4
      = [fc.settings.enabled % 256, fc.settings.Minute % 256, fc.settings.Hour % 256,
          fc.settings.Wday % 256] := by
  have h0 := fc.save_read crcOf e 0 (by omega)
  rw [Nat.add_zero] at h0
  rw [EEPROM.bytes_four, h0, fc.save_read crcOf e 1 (by omega),
    fc.save_read crcOf e 2 (by omega), fc.save_read crcOf e 3 (by omega)]
  rfl

/-- The checksum cells of the slot after `saveSettingsToEE` hold the CRC of
the field cells as they were before the save. -/
theorem FeedCompart.save_storedCrc (crcOf : List Nat → Nat) (fc : FeedCompart) (e : EEPROM) :
    fc.storedCrc (fc.saveSettingsToEE crcOf e).2 = crcOf (e.bytes fc.eepromLoc 4) % 2 ^ 32 := by
  have hc : fc.generateCrc crcOf e < 2 ^ 32 := EEGenerateCrc_lt _ _ _ _
  have hg : fc.generateCrc crcOf e = crcOf (e.bytes fc.eepromLoc 4) % 2 ^ 32 := rfl
  simp only [FeedCompart.storedCrc]
  rw [fc.save_read crcOf e 4 (by omega), fc.save_read crcOf e 5 (by omega),
    fc.save_read crcOf e 6 (by omega), fc.save_read crcOf e 7 (by omega)]
  simp only [FeedCompart.save_fst, EECompartSettings.byte]
  omega

/-! # Claims -/

set_option maxRecDepth 100000 in
/-- C1: the claim says that after `saveSettingsToEE` the stored checksum is
the CRC of the stored field bytes, so that the next `loadSettingsFromEE`
returns true. Evaluated on a blank EEPROM with door 1 armed for Monday 08:30
and the Arduino example CRC: the slot then holds the fields 1, 30, 8, 2 and
the checksum 1822041184, which is the CRC of the four 0xFF bytes the slot held
before the write; the CRC of the stored fields is 988939960, and the load that
follows returns false. -/
theorem C1_save_then_load_reports_invalid :
    (door1Monday.saveSettingsToEE eeprom_crc blankEEPROM).2.bytes 0 8
        = [1, 30, 8, 2, 96, 36, 154, 108] ∧
      (door1Monday.saveSettingsToEE eeprom_crc blankEEPROM).1.settings.crc = 1822041184 ∧
      eeprom_crc (blankEEPROM.bytes 0 4) = 1822041184 ∧
      eeprom_crc ((door1Monday.saveSettingsToEE eeprom_crc blankEEPROM).2.bytes 0 4)
        = 988939960 ∧
      ((door1Monday.saveSettingsToEE eeprom_crc blankEEPROM).1.loadSettingsFromEE eeprom_crc
        (door1Monday.saveSettingsToEE eeprom_crc blankEEPROM).2).2 = false := by
  decide

set_option maxRecDepth 100000 in
/-- C2: the claim says that `setTemp` leaves every byte outside the cooler's
slot [eepromLoc, eepromLoc + THERMO_COOLER_EE_SIZE) unchanged. Evaluated with
the slot at `EEPROM_COOLER_SETTINGS_LOC` = 16 on an all-zero EEPROM:
`setTemp(40)` writes the set point to cell 0, the `enabled` byte of door 1,
and leaves the six cells of its own slot as they were. -/
theorem C2_setTemp_writes_door_slot :
    cooler.eepromLoc = 16 ∧ THERMO_COOLER_EE_SIZE = 6 ∧
      zeroEEPROM.read 0 = 0 ∧
      (cooler.setTemp eeprom_crc zeroEEPROM 40).2.read 0 = 40 ∧
      (cooler.setTemp eeprom_crc zeroEEPROM 40).2.bytes 16 6 = zeroEEPROM.bytes 16 6 := by
  decide

set_option maxRecDepth 100000 in
/-- C3, counterexample: door 1 is CLOSED, enabled and armed for Sunday 06:28;
`now()` is 4294967295, a Sunday, 06:28:15. Then openAt = 4294967280 <= now <
openAt + 180, yet `service` leaves the phase CLOSED: `set + 60*DOOR_OPEN_TIME`
wraps around in the 32-bit `time_t`. -/
theorem C3_counterexample :
    door1Sunday.currDoorState = CLOSED ∧ door1Sunday.settings.enabled ≠ 0 ∧
      door1Sunday.settings.Wday = weekday 4294967295 ∧
      openAt door1Sunday 4294967295 = 4294967280 ∧
      openAt door1Sunday 4294967295 ≤ 4294967295 ∧
      4294967295 < openAt door1Sunday 4294967295 + 180 ∧
      (door1Sunday.service eeprom_crc blankEEPROM 4294967295 1000).1.currDoorState = CLOSED ∧
      (door1Sunday.setTime 4294967295 + 60 * DOOR_OPEN_TIME) % 2 ^ 32 = 164 := by
  decide

/-- C3, amended: for a door in phase CLOSED whose record is enabled and whose
Wday is weekday(now), with openAt + 180 s below 2^32 (inside the range of the
32-bit `time_t`), one `service` call moves the phase to OPENING, recording
msStateChange = millis(), if and only if openAt <= now < openAt + 180;
otherwise the object is unchanged. The EEPROM is unchanged in both cases. -/
theorem C3_closed_to_opening (crcOf : List Nat → Nat) (fc : FeedCompart) (e : EEPROM)
    (curr ms : Nat) (hcurr : curr < 2 ^ 32) (hphase : fc.currDoorState = CLOSED)
    (hen : fc.settings.enabled ≠ 0) (hw : fc.settings.Wday = weekday curr)
    (hrange : openAt fc curr + 180 < 2 ^ 32) :
    ((fc.service crcOf e curr ms).1.currDoorState = OPENING ↔
        openAt fc curr ≤ curr ∧ curr < openAt fc curr + 180) ∧
      fc.service crcOf e curr ms =
        if openAt fc curr ≤ curr ∧ curr < openAt fc curr + 180 then
          ({ fc with msStateChange := ms, currDoorState := OPENING }, e)
        else (fc, e) := by
  have hset : fc.setTime curr = openAt fc curr := by
    rw [fc.setTime_eq curr hcurr]
    unfold openAt at hrange ⊢
    omega
  have hsvc : fc.service crcOf e curr ms =
      if openAt fc curr ≤ curr ∧ curr < openAt fc curr + 180 then
        ({ fc with msStateChange := ms, currDoorState := OPENING }, e)
      else (fc, e) := by
    unfold FeedCompart.service
    rw [if_pos ⟨hen, hw.symm⟩]
    simp only [hphase, hset, DOOR_OPEN_TIME]
    have e1 : (openAt fc curr + 60 * 3) % 2 ^ 32 = openAt fc curr + 180 := by omega
    rw [e1]
  refine ⟨?_, hsvc⟩
  rw [hsvc]
  by_cases hc : openAt fc curr ≤ curr ∧ curr < openAt fc curr + 180
  · simp [hc]
  · simp [hc, hphase]

set_option maxRecDepth 100000 in
/-- C3, witness: door 1 armed for Monday 08:30 at 08:31:00 of Monday
31 October 2016. -/
theorem C3_closed_to_opening_witness :
    ((door1Monday.service eeprom_crc blankEEPROM 1477902660 5000).1.currDoorState = OPENING ↔
        openAt door1Monday 1477902660 ≤ 1477902660 ∧
          1477902660 < openAt door1Monday 1477902660 + 180) ∧
      door1Monday.service eeprom_crc blankEEPROM 1477902660 5000 =
        if openAt door1Monday 1477902660 ≤ 1477902660 ∧
            1477902660 < openAt door1Monday 1477902660 + 180 then
          ({ door1Monday with msStateChange := 5000, currDoorState := OPENING }, blankEEPROM)
        else (door1Monday, blankEEPROM) :=
  C3_closed_to_opening eeprom_crc door1Monday blankEEPROM 1477902660 5000 (by decide)
    (by decide) (by decide) (by decide) (by decide)

/-- C4: whatever the phase, if the record is disabled or weekday(now) differs
from its Wday, one `service` call sets the phase to CLOSED and changes nothing
else: the servo (its angle and the trace of `write` calls), the record,
msStateChange and the EEPROM are as before. -/
theorem C4_gate_forces_closed (crcOf : List Nat → Nat) (fc : FeedCompart) (e : EEPROM)
    (curr ms : Nat) (h : fc.settings.enabled = 0 ∨ weekday curr ≠ fc.settings.Wday) :
    (fc.service crcOf e curr ms).1.currDoorState = CLOSED ∧
      (fc.service crcOf e curr ms).1.doorServo = fc.doorServo ∧
      (fc.service crcOf e curr ms).1.doorServo.writes = fc.doorServo.writes ∧
      (fc.service crcOf e curr ms).1.settings = fc.settings ∧
      (fc.service crcOf e curr ms).1.msStateChange = fc.msStateChange ∧
      (fc.service crcOf e curr ms).2 = e ∧
      fc.service crcOf e curr ms = ({ fc with currDoorState := CLOSED }, e) := by
  rw [fc.service_gate_closed crcOf e curr ms h]
  exact ⟨rfl, rfl, rfl, rfl, rfl, rfl, rfl⟩

set_option maxRecDepth 100000 in
/-- C4, witness: door 1 in phase OPENING, armed for Monday, serviced on
Tuesday 1 November 2016. -/
theorem C4_gate_forces_closed_witness :
    (door1Opening.service eeprom_crc blankEEPROM 1478000000 2000).1.currDoorState = CLOSED ∧
      (door1Opening.service eeprom_crc blankEEPROM 1478000000 2000).1.doorServo
        = door1Opening.doorServo ∧
      (door1Opening.service eeprom_crc blankEEPROM 1478000000 2000).1.doorServo.writes
        = door1Opening.doorServo.writes ∧
      (door1Opening.service eeprom_crc blankEEPROM 1478000000 2000).1.settings
        = door1Opening.settings ∧
      (door1Opening.service eeprom_crc blankEEPROM 1478000000 2000).1.msStateChange
        = door1Opening.msStateChange ∧
      (door1Opening.service eeprom_crc blankEEPROM 1478000000 2000).2 = blankEEPROM ∧
      door1Opening.service eeprom_crc blankEEPROM 1478000000 2000
        = ({ door1Opening with currDoorState := CLOSED }, blankEEPROM) :=
  C4_gate_forces_closed eeprom_crc door1Opening blankEEPROM 1478000000 2000
    (Or.inr (by decide))

set_option maxRecDepth 100000 in
/-- C5: the claim says that in phase OPENING a `service` call made 3000 ms or
more after phase entry commands a position whose read-back is openDeg, so that
the next call moves the phase to OPEN. Evaluated for door 1 (closeDeg 0,
openDeg 90), enabled, on its trigger weekday, phase entered at millis() = 1000:
the call at millis() = 4100 (3100 ms elapsed) commands `map(3100, 0, 3000, 0, 90)`
= 93, the read-back is 93 and not 90, and the following call leaves the phase
OPENING. At exactly 3000 ms the commanded position is 90. -/
theorem C5_opening_overshoots_openDeg :
    door1Opening.currDoorState = OPENING ∧ door1Opening.settings.enabled ≠ 0 ∧
      weekday 1477902603 = door1Opening.settings.Wday ∧
      door1Opening.closeDeg = 0 ∧ door1Opening.openDeg = 90 ∧
      door1Opening.elapsed 4100 = 3100 ∧
      (door1Opening.service eeprom_crc blankEEPROM 1477902603 4100).1.doorServo.writes = [93] ∧
      (door1Opening.service eeprom_crc blankEEPROM 1477902603 4100).1.doorServo.read = 93 ∧
      ((door1Opening.service eeprom_crc blankEEPROM 1477902603 4100).1.service eeprom_crc
        (door1Opening.service eeprom_crc blankEEPROM 1477902603 4100).2
        1477902603 4110).1.currDoorState = OPENING ∧
      (door1Opening.service eeprom_crc blankEEPROM 1477902603 4000).1.doorServo.read = 90 := by
  decide

set_option maxRecDepth 100000 in
/-- C6, counterexample: door 1 stands OPEN, enabled, armed for Monday 23:57;
the trigger instant is Monday 31 October 2016 23:57:00 (1477958220). The
`service` call 180 s later, at Tuesday 00:00:00, finds another weekday and
sets the phase to CLOSED, not CLOSING, leaving msStateChange as it was. -/
theorem C6_counterexample :
    door1LateOpen.currDoorState = OPEN ∧ door1LateOpen.settings.enabled ≠ 0 ∧
      door1LateOpen.settings.Hour = 23 ∧ door1LateOpen.settings.Minute = 57 ∧
      1477958220 = 17105 * 86400 + 23 * 3600 + 57 * 60 ∧
      door1LateOpen.settings.Wday = weekday 1477958220 ∧
      (door1LateOpen.service eeprom_crc blankEEPROM (1477958220 + 180) 200000).1.currDoorState
        = CLOSED ∧
      (door1LateOpen.service eeprom_crc blankEEPROM (1477958220 + 180) 200000).1.msStateChange
        = 4000 := by
  decide

/-- C6, amended: for a trigger time with Hour in 0..23 and Minute in 0..59 that
is no later than 23:56, so that the trigger instant plus 180 s lies on the same
day (and is a 32-bit `time_t`): if the door is in phase OPEN with an enabled
record whose Wday is the weekday of the trigger instant of day `D`, the
`service` call at the trigger instant plus 180 s moves the phase to CLOSING
and sets msStateChange to millis(); nothing else changes. -/
theorem C6_open_to_closing (crcOf : List Nat → Nat) (fc : FeedCompart) (e : EEPROM)
    (D ms : Nat) (hH : fc.settings.Hour ≤ 23) (hM : fc.settings.Minute ≤ 59)
    (hday : fc.settings.Hour * 3600 + fc.settings.Minute * 60 + 180 < 86400)
    (hT : D * 86400 + fc.settings.Hour * 3600 + fc.settings.Minute * 60 + 180 < 2 ^ 32)
    (hphase : fc.currDoorState = OPEN) (hen : fc.settings.enabled ≠ 0)
    (hw : fc.settings.Wday
      = weekday (D * 86400 + fc.settings.Hour * 3600 + fc.settings.Minute * 60)) :
    fc.service crcOf e (D * 86400 + fc.settings.Hour * 3600 + fc.settings.Minute * 60 + 180) ms
      = ({ fc with msStateChange := ms, currDoorState := CLOSING }, e) := by
  have hd1 : (D * 86400 + fc.settings.Hour * 3600 + fc.settings.Minute * 60 + 180) / 86400
      = D := by omega
  have hd0 : (D * 86400 + fc.settings.Hour * 3600 + fc.settings.Minute * 60) / 86400 = D := by
    omega
  have hw1 : weekday (D * 86400 + fc.settings.Hour * 3600 + fc.settings.Minute * 60 + 180)
      = fc.settings.Wday := by
    rw [hw, weekday_eq _ hT, weekday_eq _ (by omega), hd1, hd0]
  have hset : fc.setTime (D * 86400 + fc.settings.Hour * 3600 + fc.settings.Minute * 60 + 180)
      = D * 86400 + fc.settings.Hour * 3600 + fc.settings.Minute * 60 := by
    rw [fc.setTime_eq _ hT, hd1]
    omega
  unfold FeedCompart.service
  rw [if_pos ⟨hen, hw1⟩]
  simp only [hphase, hset, DOOR_OPEN_TIME]
  rw [if_pos (by omega)]

set_option maxRecDepth 100000 in
/-- C6, witness: door 1 armed for Monday 08:30 and standing open, serviced at
08:33:00 of Monday 31 October 2016 (day 17105). -/
theorem C6_open_to_closing_witness :
    door1Open.service eeprom_crc blankEEPROM
        (17105 * 86400 + door1Open.settings.Hour * 3600 + door1Open.settings.Minute * 60 + 180)
        200000
      = ({ door1Open with msStateChange := 200000, currDoorState := CLOSING }, blankEEPROM) :=
  C6_open_to_closing eeprom_crc door1Open blankEEPROM 17105 200000 (by decide) (by decide)
    (by decide) (by decide) (by decide) (by decide) (by decide)

/-- C7: for a door in phase CLOSING with an enabled record on its trigger
weekday whose servo read-back equals closeDeg, one `service` call sets the
phase to CLOSED and `enabled` to false and writes the record to its slot (the
eight cells of the slot hold the bytes of the record, the `enabled` cell 0);
after that, any run of `service` calls, at whatever times, leaves the phase
CLOSED and the record disabled. -/
theorem C7_closing_completes_and_disarms (crcOf : List Nat → Nat) (fc : FeedCompart)
    (e : EEPROM) (curr ms : Nat) (hphase : fc.currDoorState = CLOSING)
    (hen : fc.settings.enabled ≠ 0) (hw : weekday curr = fc.settings.Wday)
    (hread : fc.doorServo.read = fc.closeDeg) :
    (fc.service crcOf e curr ms).1.currDoorState = CLOSED ∧
      (fc.service crcOf e curr ms).1.settings.enabled = 0 ∧
      (fc.service crcOf e curr ms).2.read fc.eepromLoc = 0 ∧
      (∀ i, i < 8 → (fc.service crcOf e curr ms).2.read (fc.eepromLoc + i)
        = (fc.service crcOf e curr ms).1.settings.byte i) ∧
      ∀ ts : List (Nat × Nat),
        (FeedCompart.serviceRun crcOf (fc.service crcOf e curr ms) ts).1.currDoorState = CLOSED ∧
        (FeedCompart.serviceRun crcOf (fc.service crcOf e curr ms) ts).1.settings.enabled = 0 := by
  have hsvc : fc.service crcOf e curr ms =
      FeedCompart.saveSettingsToEE crcOf
        { fc with msStateChange := ms, currDoorState := CLOSED,
                  settings := { fc.settings with enabled := 0 } } e := by
    unfold FeedCompart.service
    rw [if_pos ⟨hen, hw⟩]
    simp only [hphase]
    rw [if_neg (by simpa using hread)]
  have hslot := FeedCompart.save_read crcOf
    { fc with msStateChange := ms, currDoorState := CLOSED,
              settings := { fc.settings with enabled := 0 } } e
  rw [hsvc]
  refine ⟨rfl, rfl, ?_, hslot, ?_⟩
  · have h0 := hslot 0 (by omega)
    simpa [FeedCompart.save_fst, EECompartSettings.byte] using h0
  · intro ts
    have hrun := FeedCompart.serviceRun_disabled crcOf ts
      (FeedCompart.saveSettingsToEE crcOf
        { fc with msStateChange := ms, currDoorState := CLOSED,
                  settings := { fc.settings with enabled := 0 } } e).1
      (FeedCompart.saveSettingsToEE crcOf
        { fc with msStateChange := ms, currDoorState := CLOSED,
                  settings := { fc.settings with enabled := 0 } } e).2 rfl rfl
    rw [Prod.mk.eta] at hrun
    rw [hrun]
    exact ⟨rfl, rfl⟩

set_option maxRecDepth 100000 in
/-- C7, witness: door 1 in phase CLOSING with the servo at closeDeg, serviced
at 08:33:10 of Monday 31 October 2016. -/
theorem C7_closing_completes_and_disarms_witness :
    (door1Closing.service eeprom_crc blankEEPROM 1477902790 204000).1.currDoorState = CLOSED ∧
      (door1Closing.service eeprom_crc blankEEPROM 1477902790 204000).1.settings.enabled = 0 ∧
      (door1Closing.service eeprom_crc blankEEPROM 1477902790 204000).2.read
        door1Closing.eepromLoc = 0 ∧
      (∀ i, i < 8 →
        (door1Closing.service eeprom_crc blankEEPROM 1477902790 204000).2.read
            (door1Closing.eepromLoc + i)
          = (door1Closing.service eeprom_crc blankEEPROM 1477902790 204000).1.settings.byte i) ∧
      ∀ ts : List (Nat × Nat),
        (FeedCompart.serviceRun eeprom_crc
          (door1Closing.service eeprom_crc blankEEPROM 1477902790 204000) ts).1.currDoorState
            = CLOSED ∧
        (FeedCompart.serviceRun eeprom_crc
          (door1Closing.service eeprom_crc blankEEPROM 1477902790 204000) ts).1.settings.enabled
            = 0 :=
  C7_closing_completes_and_disarms eeprom_crc door1Closing blankEEPROM 1477902790 204000
    (by decide) (by decide) (by decide) (by decide)

/-- C8: for a record with Minute in 0..59, Hour in 0..23, Wday in 1..7 and
`enabled` 0 or 1, and any EEPROM content: after `saveSettingsToEE`, a
`loadSettingsFromEE` on the same slot, by any object of that slot whatever its
in-memory record holds before the load, leaves the record read from the slot
equal to the record as it was right after the save (enabled, Minute, Hour,
Wday and crc), and changes nothing else of the loading object. In particular
the saving object itself, also with its in-memory record overwritten in
between, is after the load as it was right after the save. -/
theorem C8_save_load_roundtrip (crcOf : List Nat → Nat) (fc other : FeedCompart) (e : EEPROM)
    (mem : EECompartSettings) (hloc : other.eepromLoc = fc.eepromLoc)
    (hM : fc.settings.Minute ≤ 59) (hH : fc.settings.Hour ≤ 23)
    (hW1 : 1 ≤ fc.settings.Wday) (hW7 : fc.settings.Wday ≤ 7) (hE : fc.settings.enabled ≤ 1) :
    (other.loadSettingsFromEE crcOf (fc.saveSettingsToEE crcOf e).2).1.settings
        = (fc.saveSettingsToEE crcOf e).1.settings ∧
      (other.loadSettingsFromEE crcOf (fc.saveSettingsToEE crcOf e).2).1
        = { other with settings := (fc.saveSettingsToEE crcOf e).1.settings } ∧
      (FeedCompart.loadSettingsFromEE crcOf
          { (fc.saveSettingsToEE crcOf e).1 with settings := mem }
          (fc.saveSettingsToEE crcOf e).2).1 = (fc.saveSettingsToEE crcOf e).1 ∧
      ((fc.saveSettingsToEE crcOf e).1.loadSettingsFromEE crcOf
        (fc.saveSettingsToEE crcOf e).2).1 = (fc.saveSettingsToEE crcOf e).1 ∧
      (other.loadSettingsFromEE crcOf (fc.saveSettingsToEE crcOf e).2).1.settings
        = { enabled := fc.settings.enabled, Minute := fc.settings.Minute,
            Hour := fc.settings.Hour, Wday := fc.settings.Wday,
            crc := (fc.saveSettingsToEE crcOf e).1.settings.crc } := by
  have hof := fc.ofBytes_save crcOf e
  have hloc1 : (fc.saveSettingsToEE crcOf e).1.eepromLoc = fc.eepromLoc := rfl
  have e0 : fc.settings.enabled % 256 = fc.settings.enabled := by omega
  have e1 : fc.settings.Minute % 256 = fc.settings.Minute := by omega
  have e2 : fc.settings.Hour % 256 = fc.settings.Hour := by omega
  have e3 : fc.settings.Wday % 256 = fc.settings.Wday := by omega
  have c1 : constrain fc.settings.Wday 1 7 = fc.settings.Wday := by
    unfold constrain; split_ifs <;> omega
  have c2 : constrain fc.settings.Hour 0 23 = fc.settings.Hour := by
    unfold constrain; split_ifs <;> omega
  have c3 : constrain fc.settings.Minute 0 59 = fc.settings.Minute := by
    unfold constrain; split_ifs <;> omega
  simp only [FeedCompart.loadSettingsFromEE, hloc, hloc1, hof, e0, e1, e2, e3, c1, c2, c3]
  exact ⟨rfl, rfl, rfl, rfl, rfl⟩

set_option maxRecDepth 100000 in
/-- C8, witness: door 1 armed for Monday 08:30 is saved to a blank EEPROM; the
load is made by an object of the same slot whose in-memory record is Sunday
06:28, and reads back the Monday record with the checksum the save stored. -/
theorem C8_save_load_roundtrip_witness :
    door1Sunday.settings ≠ (door1Monday.saveSettingsToEE eeprom_crc blankEEPROM).1.settings ∧
      (door1Sunday.loadSettingsFromEE eeprom_crc
          (door1Monday.saveSettingsToEE eeprom_crc blankEEPROM).2).1.settings
        = (door1Monday.saveSettingsToEE eeprom_crc blankEEPROM).1.settings ∧
      (door1Sunday.loadSettingsFromEE eeprom_crc
          (door1Monday.saveSettingsToEE eeprom_crc blankEEPROM).2).1.settings
        = { enabled := 1, Minute := 30, Hour := 8, Wday := 2, crc := 1822041184 } :=
  ⟨by decide,
    (C8_save_load_roundtrip eeprom_crc door1Monday door1Sunday blankEEPROM
      door1Sunday.settings (by decide) (by decide) (by decide) (by decide) (by decide)
      (by decide)).1,
    by decide⟩

/-- C9: `loadSettingsFromEE` is a total function and returns true exactly when
the checksum stored in the last four cells of the slot equals the CRC of the
four cells before them; so, if the CRC tells apart ranges that differ in one
bit, then for every EEPROM whose slot loads as valid, flipping any one bit of
any of the four field cells (enabled, Minute, Hour, Wday) makes the load
return false. -/
theorem C9_load_valid_iff_and_flip_detected (crcOf : List Nat → Nat) (fc : FeedCompart)
    (e : EEPROM) :
    ((fc.loadSettingsFromEE crcOf e).2 = true ↔
        fc.storedCrc e = crcOf (e.bytes fc.eepromLoc 4) % 2 ^ 32) ∧
      (DetectsSingleBitFlips crcOf → (fc.loadSettingsFromEE crcOf e).2 = true →
        ∀ i k, i < 4 → k < 8 →
          (fc.loadSettingsFromEE crcOf (e.flipBit (fc.eepromLoc + i) k)).2 = false) := by
  refine ⟨fc.load_valid_iff crcOf e, ?_⟩
  intro hdet hvalid i k hi hk
  have hv := (fc.load_valid_iff crcOf e).1 hvalid
  have hne := hdet (e.bytes fc.eepromLoc 4) i k rfl
    (by
      intro b hb
      simp only [EEPROM.bytes_four, List.mem_cons, List.mem_singleton, List.not_mem_nil,
        or_false] at hb
      rcases hb with h | h | h | h <;> rw [h] <;> exact e.read_lt _)
    hi hk
  rw [← e.bytes_flipBit fc.eepromLoc i k hi hk] at hne
  cases hload : (fc.loadSettingsFromEE crcOf (e.flipBit (fc.eepromLoc + i) k)).2 with
  | false => rfl
  | true =>
    have hv2 := (fc.load_valid_iff crcOf (e.flipBit (fc.eepromLoc + i) k)).1 hload
    rw [fc.storedCrc_flipBit e i k hi, hv] at hv2
    exact absurd hv2.symm hne

set_option maxRecDepth 100000 in
/-- C9, witness: the base-256 checksum meets the assumption, the slot of
`base256EEPROM` loads as valid, and flipping bit 3 of the Minute cell is
detected. -/
theorem C9_load_valid_iff_and_flip_detected_witness :
    DetectsSingleBitFlips base256 ∧
      (door1Monday.loadSettingsFromEE base256 base256EEPROM).2 = true ∧
      (door1Monday.loadSettingsFromEE base256
        (base256EEPROM.flipBit (door1Monday.eepromLoc + 1) 3)).2 = false :=
  ⟨base256_detects, by decide,
    (C9_load_valid_iff_and_flip_detected base256 door1Monday base256EEPROM).2 base256_detects
      (by decide) 1 3 (by decide) (by decide)⟩

/-- C10: `begin` on a door in phase CLOSED (as constructed). If the load
reports invalid, the record is left with enabled = false, Minute = minute(now),
Hour = hour(now), Wday = weekday(now), and those four fields are in the first
four cells of the slot. If the load reports valid, the record is the loaded
one and the EEPROM is unchanged. In both cases the phase is CLOSED and the
last `write` to the servo, after `attach`, has the argument closeDeg. -/
theorem C10_begin_defaults_or_keeps (crcOf : List Nat → Nat) (fc : FeedCompart) (e : EEPROM)
    (curr : Nat) (hphase : fc.currDoorState = CLOSED) :
    ((fc.loadSettingsFromEE crcOf e).2 = false →
        (fc.begin crcOf e curr).1.settings.enabled = 0 ∧
        (fc.begin crcOf e curr).1.settings.Minute = minute curr ∧
        (fc.begin crcOf e curr).1.settings.Hour = hour curr ∧
        (fc.begin crcOf e curr).1.settings.Wday = weekday curr ∧
        (fc.begin crcOf e curr).2.bytes fc.eepromLoc 4
          = [0, minute curr, hour curr, weekday curr]) ∧
      ((fc.loadSettingsFromEE crcOf e).2 = true →
        (fc.begin crcOf e curr).1.settings = (fc.loadSettingsFromEE crcOf e).1.settings ∧
        (fc.begin crcOf e curr).2 = e) ∧
      (fc.begin crcOf e curr).1.currDoorState = CLOSED ∧
      (fc.begin crcOf e curr).1.doorServo.writes = (fc.closeDeg : Int) :: fc.doorServo.writes ∧
      (fc.begin crcOf e curr).1.doorServo
        = (fc.doorServo.attach fc.servoPin).write (fc.closeDeg : Int) := by
  refine ⟨?_, ?_, ?_, ?_, ?_⟩
  · intro h
    obtain ⟨hs, he⟩ := fc.begin_invalid crcOf e curr h
    rw [hs, he]
    refine ⟨rfl, rfl, rfl, rfl, ?_⟩
    have hm := minute_lt curr
    have hh := hour_lt curr
    have hw := weekday_range curr
    have hr := FeedCompart.save_read crcOf
      { fc with settings :=
          { enabled := 0, Minute := minute curr, Hour := hour curr, Wday := weekday curr,
            crc := (fc.loadSettingsFromEE crcOf e).1.settings.crc } } e
    have h0 := hr 0 (by omega)
    have h1 := hr 1 (by omega)
    have h2 := hr 2 (by omega)
    have h3 := hr 3 (by omega)
    simp only [FeedCompart.save_fst, EECompartSettings.byte, Nat.add_zero] at h0 h1 h2 h3
    rw [EEPROM.bytes_four, h0, h1, h2, h3, Nat.mod_eq_of_lt (by omega : minute curr < 256),
      Nat.mod_eq_of_lt (by omega : hour curr < 256),
      Nat.mod_eq_of_lt (by omega : weekday curr < 256)]
  · intro h
    simp only [FeedCompart.begin, h]
    exact ⟨rfl, rfl⟩
  · cases h : (fc.loadSettingsFromEE crcOf e).2 <;>
      simp only [FeedCompart.begin, h] <;> exact hphase
  · cases h : (fc.loadSettingsFromEE crcOf e).2 <;>
      simp only [FeedCompart.begin, h] <;> rfl
  · cases h : (fc.loadSettingsFromEE crcOf e).2 <;>
      simp only [FeedCompart.begin, h] <;> rfl

set_option maxRecDepth 100000 in
/-- C10, witness: `begin` of door 1 at 11:33:20 of Tuesday 1 November 2016,
once on a blank EEPROM (the load reports invalid) and once on the EEPROM left
by two saves (the load reports valid). -/
theorem C10_begin_defaults_or_keeps_witness :
    ((door1Monday.begin eeprom_crc blankEEPROM 1478000000).1.settings.enabled = 0 ∧
        (door1Monday.begin eeprom_crc blankEEPROM 1478000000).1.settings.Minute
          = minute 1478000000 ∧
        (door1Monday.begin eeprom_crc blankEEPROM 1478000000).1.settings.Hour
          = hour 1478000000 ∧
        (door1Monday.begin eeprom_crc blankEEPROM 1478000000).1.settings.Wday
          = weekday 1478000000 ∧
        (door1Monday.begin eeprom_crc blankEEPROM 1478000000).2.bytes door1Monday.eepromLoc 4
          = [0, minute 1478000000, hour 1478000000, weekday 1478000000]) ∧
      ((door1Monday.begin eeprom_crc savedTwiceEEPROM 1478000000).1.settings
          = (door1Monday.loadSettingsFromEE eeprom_crc savedTwiceEEPROM).1.settings ∧
        (door1Monday.begin eeprom_crc savedTwiceEEPROM 1478000000).2 = savedTwiceEEPROM) :=
  ⟨(C10_begin_defaults_or_keeps eeprom_crc door1Monday blankEEPROM 1478000000
      (by decide)).1 (by decide),
    (C10_begin_defaults_or_keeps eeprom_crc door1Monday savedTwiceEEPROM 1478000000
      (by decide)).2.1 (by decide)⟩

/-- C11: for an enabled cooler, any set point and any band half-width BAND > 0,
`service` sets the duty to 100 when the filtered temperature is above
setpoint + BAND, to 0 when it is at most setpoint - BAND, and to 50 when it
equals the set point. The filtered temperature is the `last_temp` that the
call leaves. -/
theorem C11_duty_at_thermal_boundaries (BAND : ℚ) (tc : ThermoCooler) (sample : ℚ)
    (hB : 0 < BAND) (he : tc.enabled = true) :
    ((tc.service BAND sample).1.last_temp > tc.settings.set_temp + BAND →
        (tc.service BAND sample).1.pwmPercent = 100) ∧
      ((tc.service BAND sample).1.last_temp ≤ tc.settings.set_temp - BAND →
        (tc.service BAND sample).1.pwmPercent = 0) ∧
      ((tc.service BAND sample).1.last_temp = tc.settings.set_temp →
        (tc.service BAND sample).1.pwmPercent = 50) := by
  simp only [ThermoCooler.service_last_temp]
  refine ⟨?_, ?_, ?_⟩
  · intro h
    rw [tc.service_above BAND sample he h]
  · intro h
    rw [tc.service_below BAND sample he hB h]
  · intro h
    rw [tc.service_band BAND sample he (by linarith) (by linarith)]
    simp only [h, sub_self, mul_zero, zero_div, add_zero]
    have e1 : round (128 : ℚ) = 128 := by simpa using round_intCast 128
    rw [e1]
    have e2 : (((128 : Int) : ℚ) * 100) / 255 = ((128 : ℚ) * 100) / 255 := by norm_num
    rw [e2, round_percent_128]
    rfl

/-- C11, witness: set point 40 and BAND 5; the filtered temperatures 46, 34
and 40 give the duties 100, 0 and 50. -/
theorem C11_duty_at_thermal_boundaries_witness :
    (((coolerAt 46).service 5 46).1.last_temp = 46 ∧
        ((coolerAt 46).service 5 46).1.pwmPercent = 100) ∧
      (((coolerAt 34).service 5 34).1.last_temp = 34 ∧
        ((coolerAt 34).service 5 34).1.pwmPercent = 0) ∧
      (((coolerAt 40).service 5 40).1.last_temp = 40 ∧
        ((coolerAt 40).service 5 40).1.pwmPercent = 50) :=
  ⟨⟨by show ((46 : ℚ) + 46) / 2 = 46; norm_num,
      (C11_duty_at_thermal_boundaries 5 (coolerAt 46) 46 (by norm_num) rfl).1
        (by show ((46 : ℚ) + 46) / 2 > ((40 : Int) : ℚ) + 5; norm_num)⟩,
    ⟨by show ((34 : ℚ) + 34) / 2 = 34; norm_num,
      (C11_duty_at_thermal_boundaries 5 (coolerAt 34) 34 (by norm_num) rfl).2.1
        (by show ((34 : ℚ) + 34) / 2 ≤ ((40 : Int) : ℚ) - 5; norm_num)⟩,
    ⟨by show ((40 : ℚ) + 40) / 2 = 40; norm_num,
      (C11_duty_at_thermal_boundaries 5 (coolerAt 40) 40 (by norm_num) rfl).2.2
        (by show ((40 : ℚ) + 40) / 2 = ((40 : Int) : ℚ); norm_num)⟩⟩

/-- C12: for enabled coolers with the same set point and BAND > 0, the duty
computed by `service` does not decrease with the filtered temperature, over
the whole temperature axis: if the filtered temperature of the first call is
at most that of the second, so are the duties. -/
theorem C12_duty_monotone (BAND : ℚ) (tc1 tc2 : ThermoCooler) (s1 s2 : ℚ) (hB : 0 < BAND)
    (he1 : tc1.enabled = true) (he2 : tc2.enabled = true)
    (hset : tc1.settings.set_temp = tc2.settings.set_temp)
    (hle : (tc1.service BAND s1).1.last_temp ≤ (tc2.service BAND s2).1.last_temp) :
    (tc1.service BAND s1).1.pwmPercent ≤ (tc2.service BAND s2).1.pwmPercent := by
  simp only [ThermoCooler.service_last_temp] at hle
  by_cases ha : (s1 + tc1.last_temp) / 2 ≤ tc1.settings.set_temp - BAND
  · rw [tc1.service_below BAND s1 he1 hB ha]
    exact Nat.zero_le _
  · have ha' : (s1 + tc1.last_temp) / 2 > tc1.settings.set_temp - BAND := not_le.mp ha
    have hb' : (s2 + tc2.last_temp) / 2 > tc2.settings.set_temp - BAND := by
      rw [← hset]
      linarith
    by_cases hb : (s2 + tc2.last_temp) / 2 > tc2.settings.set_temp + BAND
    · rw [tc2.service_above BAND s2 he2 hb]
      by_cases ha2 : (s1 + tc1.last_temp) / 2 > tc1.settings.set_temp + BAND
      · rw [tc1.service_above BAND s1 he1 ha2]
      · rw [tc1.service_band BAND s1 he1 (not_lt.mp ha2) ha']
        obtain ⟨e, l, u⟩ := band_duty BAND ((s1 + tc1.last_temp) / 2)
          tc1.settings.set_temp hB (not_lt.mp ha2) ha'
        show toUInt16 _ ≤ 100
        rw [e]
        omega
    · have hb2 : (s2 + tc2.last_temp) / 2 ≤ tc2.settings.set_temp + BAND := not_lt.mp hb
      have ha2 : (s1 + tc1.last_temp) / 2 ≤ tc1.settings.set_temp + BAND := by
        rw [hset]
        linarith
      rw [tc1.service_band BAND s1 he1 ha2 ha', tc2.service_band BAND s2 he2 hb2 hb']
      obtain ⟨e1, l1, u1⟩ := band_duty BAND ((s1 + tc1.last_temp) / 2)
        tc1.settings.set_temp hB ha2 ha'
      obtain ⟨e2, l2, u2⟩ := band_duty BAND ((s2 + tc2.last_temp) / 2)
        tc2.settings.set_temp hB hb2 hb'
      have hm := band_duty_mono BAND ((s1 + tc1.last_temp) / 2) ((s2 + tc2.last_temp) / 2)
        tc2.settings.set_temp hB hle
      show toUInt16 _ ≤ toUInt16 _
      rw [e1, e2, hset]
      exact Int.toNat_le_toNat hm

/-- C12, witness: set point 40, BAND 5, filtered temperatures 36 and 46. -/
theorem C12_duty_monotone_witness :
    ((coolerAt 36).service 5 36).1.pwmPercent ≤ ((coolerAt 46).service 5 46).1.pwmPercent :=
  C12_duty_monotone 5 (coolerAt 36) (coolerAt 46) 36 46 (by norm_num) rfl rfl rfl
    (by show ((36 : ℚ) + 36) / 2 ≤ ((46 : ℚ) + 46) / 2; norm_num)

/-- C13, counterexample: set point 40, BAND 5, filtered temperature 36, inside
the band (35 < 36 <= 45). The drive value is round(128 - 127*4/5) = 26 and the
duty is round(2600/255) = 10, below 50. -/
theorem C13_counterexample :
    (coolerAt 36).enabled = true ∧
      ((coolerAt 36).service 5 36).1.last_temp = 36 ∧
      ((coolerAt 36).settings.set_temp : ℚ) - 5 < 36 ∧
      (36 : ℚ) ≤ ((coolerAt 36).settings.set_temp : ℚ) + 5 ∧
      ((coolerAt 36).service 5 36).2 = PinWrite.analogWrite 4 26 ∧
      ((coolerAt 36).service 5 36).1.pwmPercent = 10 := by
  have hc : ((36 : ℚ) + (coolerAt 36).last_temp) / 2 = 36 := by
    show ((36 : ℚ) + 36) / 2 = 36
    norm_num
  have hs : ((coolerAt 36).settings.set_temp : ℚ) = 40 := by
    show ((40 : Int) : ℚ) = 40
    norm_num
  have r1 : round (128 + (127 * ((36 : ℚ) - 40)) / 5) = 26 := by
    rw [round_of_nonneg _ (by norm_num), Int.floor_eq_iff]
    constructor <;> norm_num
  have r2 : round ((((26 : Int) : ℚ) * 100) / 255) = 10 := by
    rw [round_of_nonneg _ (by norm_num), Int.floor_eq_iff]
    constructor <;> norm_num
  have hsv := (coolerAt 36).service_band 5 36 rfl (by rw [hc, hs]; norm_num)
    (by rw [hc, hs]; norm_num)
  rw [hc, hs, r1, r2, toLong_intCast] at hsv
  rw [hsv, hs]
  refine ⟨rfl, rfl, by norm_num, by norm_num, ?_, ?_⟩
  · show PinWrite.analogWrite (coolerAt 36).pin (toInt16 26) = PinWrite.analogWrite 4 26
    rfl
  · show toUInt16 10 = 10
    rfl

/-- C13, amended: for an enabled cooler and BAND > 0, at every filtered
temperature inside the band (setpoint - BAND < filteredTemp <= setpoint + BAND)
the duty is round(round(128 + 127*delta/BAND)*100/255) with delta =
filteredTemp - setpoint; it is at most 100, and it is at least 50 when the
filtered temperature is at least the set point. -/
theorem C13_band_duty_range (BAND : ℚ) (tc : ThermoCooler) (sample : ℚ)
    (hB : 0 < BAND) (he : tc.enabled = true)
    (hlo : tc.settings.set_temp - BAND < (tc.service BAND sample).1.last_temp)
    (hhi : (tc.service BAND sample).1.last_temp ≤ tc.settings.set_temp + BAND) :
    ((tc.service BAND sample).1.pwmPercent : Int)
        = round (((round (128 + (127 *
            ((tc.service BAND sample).1.last_temp - tc.settings.set_temp)) / BAND) : ℚ) * 100)
            / 255) ∧
      (tc.service BAND sample).1.pwmPercent ≤ 100 ∧
      ((tc.settings.set_temp : ℚ) ≤ (tc.service BAND sample).1.last_temp →
        50 ≤ (tc.service BAND sample).1.pwmPercent) := by
  simp only [ThermoCooler.service_last_temp] at hlo hhi ⊢
  obtain ⟨e, l, u⟩ := band_duty BAND ((sample + tc.last_temp) / 2)
    tc.settings.set_temp hB hhi hlo
  rw [tc.service_band BAND sample he hhi hlo]
  simp only [e]
  refine ⟨Int.toNat_of_nonneg l, by omega, ?_⟩
  intro hge
  have h1 : (128 : ℚ) ≤ 128 + (127 * ((sample + tc.last_temp) / 2 - tc.settings.set_temp))
      / BAND := by
    have : 0 ≤ (127 * ((sample + tc.last_temp) / 2 - tc.settings.set_temp)) / BAND :=
      div_nonneg (by linarith) (le_of_lt hB)
    linarith
  have h2 := round_mono h1
  have e1 : round (128 : ℚ) = 128 := by simpa using round_intCast 128
  rw [e1] at h2
  have h3 : ((128 : ℚ) * 100) / 255
      ≤ (((round (128 + (127 * ((sample + tc.last_temp) / 2 - tc.settings.set_temp))
          / BAND) : Int) : ℚ) * 100) / 255 := by
    apply div_le_div_of_nonneg_right _ (by norm_num)
    have : ((128 : Int) : ℚ) ≤ ((round (128 + (127 *
        ((sample + tc.last_temp) / 2 - tc.settings.set_temp)) / BAND) : Int) : ℚ) := by
      exact_mod_cast h2
    push_cast at this
    linarith
  have h4 := round_mono h3
  rw [round_percent_128] at h4
  omega

/-- C13, witness: set point 40, BAND 5, filtered temperature 40. -/
theorem C13_band_duty_range_witness :
    (((coolerAt 40).service 5 40).1.pwmPercent : Int)
        = round (((round (128 + (127 *
            (((coolerAt 40).service 5 40).1.last_temp - (coolerAt 40).settings.set_temp)) / 5)
            : ℚ) * 100) / 255) ∧
      ((coolerAt 40).service 5 40).1.pwmPercent ≤ 100 ∧
      (((coolerAt 40).settings.set_temp : ℚ) ≤ ((coolerAt 40).service 5 40).1.last_temp →
        50 ≤ ((coolerAt 40).service 5 40).1.pwmPercent) :=
  C13_band_duty_range 5 (coolerAt 40) 40 (by norm_num) rfl
    (by show ((40 : Int) : ℚ) - 5 < ((40 : ℚ) + 40) / 2; norm_num)
    (by show ((40 : ℚ) + 40) / 2 ≤ ((40 : Int) : ℚ) + 5; norm_num)

/-- C14: for a disabled cooler, whatever the set point, the band and the
sensor sample, `service` sets the duty to 0 and switches the output off
(`digitalWrite(pin, 0)`), so `getPwmPercent()` returns 0 after the call. -/
theorem C14_disabled_duty_zero (BAND : ℚ) (tc : ThermoCooler) (sample : ℚ)
    (h : tc.enabled = false) :
    (tc.service BAND sample).1.pwmPercent = 0 ∧
      (tc.service BAND sample).1.getPwmPercent = 0 ∧
      (tc.service BAND sample).2 = PinWrite.digitalWrite tc.pin 0 := by
  rw [tc.service_disabled BAND sample h]
  exact ⟨rfl, rfl, rfl⟩

/-- C14, witness: the disabled cooler with a sample of 100 degrees. -/
theorem C14_disabled_duty_zero_witness :
    (coolerOff.service 5 100).1.pwmPercent = 0 ∧
      (coolerOff.service 5 100).1.getPwmPercent = 0 ∧
      (coolerOff.service 5 100).2 = PinWrite.digitalWrite coolerOff.pin 0 :=
  C14_disabled_duty_zero 5 coolerOff 100 rfl

/-- C15: after `loadSettingsFromEE`, whatever the EEPROM holds and whatever the
flag returned, the record has Wday in 1..7, Hour at most 23 and Minute at most
59; so it has after `begin`; and `enable`, `service` and every run of such
calls keep fields that are in range in range. The clock values that `begin`
may store, weekday(now), hour(now) and minute(now), are in these ranges. -/
theorem C15_schedule_fields_in_range (crcOf : List Nat → Nat) (fc : FeedCompart) (e : EEPROM)
    (curr ms : Nat) :
    (fc.loadSettingsFromEE crcOf e).1.settings.InRange ∧
      (fc.begin crcOf e curr).1.settings.InRange ∧
      (fc.settings.InRange →
        (fc.enable crcOf e).1.settings.InRange ∧
        (fc.service crcOf e curr ms).1.settings.InRange) ∧
      (fc.settings.InRange →
        ∀ calls : List DoorCall, (FeedCompart.run crcOf (fc, e) calls).1.settings.InRange) ∧
      (1 ≤ weekday curr ∧ weekday curr ≤ 7 ∧ hour curr ≤ 23 ∧ minute curr ≤ 59) := by
  refine ⟨fc.load_inRange crcOf e, fc.begin_inRange crcOf e curr, ?_, ?_, ?_⟩
  · intro h
    exact ⟨FeedCompart.call_inRange crcOf (fc, e) DoorCall.enable h,
      FeedCompart.call_inRange crcOf (fc, e) (DoorCall.service curr ms) h⟩
  · intro h calls
    exact FeedCompart.run_inRange crcOf calls (fc, e) h
  · have hm := minute_lt curr
    have hh := hour_lt curr
    have hw := weekday_range curr
    omega

set_option maxRecDepth 100000 in
/-- C15, witness: door 1 armed for Monday 08:30 on a blank EEPROM; the run is
`enable` followed by a `service` call at 08:31:00 of Monday 31 October 2016. -/
theorem C15_schedule_fields_in_range_witness :
    door1Monday.settings.InRange ∧
      (door1Monday.loadSettingsFromEE eeprom_crc blankEEPROM).1.settings.InRange ∧
      (door1Monday.begin eeprom_crc blankEEPROM 1478000000).1.settings.InRange ∧
      (FeedCompart.run eeprom_crc (door1Monday, blankEEPROM)
        [DoorCall.enable, DoorCall.service 1477902660 5000]).1.settings.InRange :=
  ⟨by unfold EECompartSettings.InRange; decide,
    (C15_schedule_fields_in_range eeprom_crc door1Monday blankEEPROM 1478000000 0).1,
    (C15_schedule_fields_in_range eeprom_crc door1Monday blankEEPROM 1478000000 0).2.1,
    (C15_schedule_fields_in_range eeprom_crc door1Monday blankEEPROM 1478000000 0).2.2.2.1
      (by unfold EECompartSettings.InRange; decide) _⟩

/-- C16: the duty is 0 after construction, and for every enabled flag, set
point, BAND > 0, previous filtered temperature and sample, the duty after
`service` is at most 100 (it is a natural number); whenever `service` calls
`analogWrite`, the value passed is between 1 and 255, and in the proportional
branch it does call `analogWrite`, with round(128 + 127*delta/BAND). -/
theorem C16_duty_and_drive_ranges (BAND : ℚ) (tc : ThermoCooler) (sample : ℚ)
    (hB : 0 < BAND) :
    (∀ pin eepromLoc settings last_temp,
        (ThermoCooler.new pin eepromLoc settings last_temp).pwmPercent = 0) ∧
      (tc.service BAND sample).1.pwmPercent ≤ 100 ∧
      (∀ pin v, (tc.service BAND sample).2 = PinWrite.analogWrite pin v → 1 ≤ v ∧ v ≤ 255) ∧
      (tc.enabled = true →
        (tc.service BAND sample).1.last_temp ≤ tc.settings.set_temp + BAND →
        tc.settings.set_temp - BAND < (tc.service BAND sample).1.last_temp →
        (tc.service BAND sample).2 = PinWrite.analogWrite tc.pin
          (round (128 + (127 *
            ((tc.service BAND sample).1.last_temp - tc.settings.set_temp)) / BAND))) := by
  simp only [ThermoCooler.service_last_temp]
  have hband : ∀ (_ : tc.enabled = true)
      (h1 : (sample + tc.last_temp) / 2 ≤ tc.settings.set_temp + BAND)
      (h2 : tc.settings.set_temp - BAND < (sample + tc.last_temp) / 2),
      toInt16 (toLong (round (128 + (127 *
          ((sample + tc.last_temp) / 2 - tc.settings.set_temp)) / BAND) : ℚ))
        = round (128 + (127 * ((sample + tc.last_temp) / 2 - tc.settings.set_temp)) / BAND) ∧
      1 ≤ round (128 + (127 * ((sample + tc.last_temp) / 2 - tc.settings.set_temp)) / BAND) ∧
      round (128 + (127 * ((sample + tc.last_temp) / 2 - tc.settings.set_temp)) / BAND)
        ≤ 255 := by
    intro _ h1 h2
    obtain ⟨a1, a2⟩ := drive_arg_bounds BAND _ _ hB h1 h2
    obtain ⟨b1, b2⟩ := round_drive_bounds _ a1 a2
    rw [toLong_intCast, toInt16_of_range _ b1 b2]
    exact ⟨rfl, b1, b2⟩
  refine ⟨fun _ _ _ _ => rfl, ?_, ?_, ?_⟩
  · cases he : tc.enabled with
    | false => rw [tc.service_disabled BAND sample he]; exact Nat.zero_le _
    | true =>
      by_cases h1 : (sample + tc.last_temp) / 2 > tc.settings.set_temp + BAND
      · rw [tc.service_above BAND sample he h1]
      · by_cases h2 : (sample + tc.last_temp) / 2 > tc.settings.set_temp - BAND
        · rw [tc.service_band BAND sample he (not_lt.mp h1) h2]
          obtain ⟨e, l, u⟩ := band_duty BAND _ _ hB (not_lt.mp h1) h2
          show toUInt16 _ ≤ 100
          rw [e]
          omega
        · rw [tc.service_below BAND sample he hB (not_lt.mp h2)]
          exact Nat.zero_le _
  · intro pin v
    cases he : tc.enabled with
    | false => rw [tc.service_disabled BAND sample he]; intro h; cases h
    | true =>
      by_cases h1 : (sample + tc.last_temp) / 2 > tc.settings.set_temp + BAND
      · rw [tc.service_above BAND sample he h1]; intro h; cases h
      · by_cases h2 : (sample + tc.last_temp) / 2 > tc.settings.set_temp - BAND
        · rw [tc.service_band BAND sample he (not_lt.mp h1) h2]
          obtain ⟨e, l, u⟩ := hband he (not_lt.mp h1) h2
          intro h
          simp only [PinWrite.analogWrite.injEq] at h
          rw [← h.2, e]
          exact ⟨l, u⟩
        · rw [tc.service_below BAND sample he hB (not_lt.mp h2)]; intro h; cases h
  · intro he h1 h2
    rw [tc.service_band BAND sample he h1 h2]
    obtain ⟨e, _, _⟩ := hband he h1 h2
    show PinWrite.analogWrite tc.pin _ = _
    rw [e]

/-- C16, witness: set point 40, BAND 5, filtered temperature 36: the drive
value is 26 and the duty 10. -/
theorem C16_duty_and_drive_ranges_witness :
    ((coolerAt 36).service 5 36).1.pwmPercent ≤ 100 ∧
      (∀ pin v, ((coolerAt 36).service 5 36).2 = PinWrite.analogWrite pin v →
        1 ≤ v ∧ v ≤ 255) :=
  ⟨(C16_duty_and_drive_ranges 5 (coolerAt 36) 36 (by norm_num)).2.1,
    (C16_duty_and_drive_ranges 5 (coolerAt 36) 36 (by norm_num)).2.2.1⟩

/-- C17: for closeDeg and openDeg in 0..180 and an elapsed time t of 0..3000 ms
(the value of `(long)(millis() - msStateChange)`), with the record enabled on
its trigger weekday: in phase OPENING, while the servo does not read openDeg,
`service` writes closeDeg + ((openDeg - closeDeg) * t) / 3000 to the servo, and
in phase CLOSING, while it does not read closeDeg, openDeg + ((closeDeg -
openDeg) * t) / 3000, the division truncating toward zero. Both positions lie
between closeDeg and openDeg; at t = 0 they are closeDeg and openDeg, at
t = 3000 openDeg and closeDeg. -/
theorem C17_interpolated_position (crcOf : List Nat → Nat) (fc : FeedCompart) (e : EEPROM)
    (curr ms t : Nat) (hc : fc.closeDeg ≤ 180) (ho : fc.openDeg ≤ 180) (ht : t ≤ 3000)
    (hel : fc.elapsed ms = (t : Int)) (hen : fc.settings.enabled ≠ 0)
    (hw : weekday curr = fc.settings.Wday) :
    (fc.currDoorState = OPENING → fc.doorServo.read ≠ fc.openDeg →
        (fc.service crcOf e curr ms).1.doorServo.writes
          = ((fc.closeDeg : Int) + Int.tdiv (((fc.openDeg : Int) - fc.closeDeg) * t) 3000)
              :: fc.doorServo.writes) ∧
      (fc.currDoorState = CLOSING → fc.doorServo.read ≠ fc.closeDeg →
        (fc.service crcOf e curr ms).1.doorServo.writes
          = ((fc.openDeg : Int) + Int.tdiv (((fc.closeDeg : Int) - fc.openDeg) * t) 3000)
              :: fc.doorServo.writes) ∧
      (min (fc.closeDeg : Int) fc.openDeg
          ≤ (fc.closeDeg : Int) + Int.tdiv (((fc.openDeg : Int) - fc.closeDeg) * t) 3000 ∧
        (fc.closeDeg : Int) + Int.tdiv (((fc.openDeg : Int) - fc.closeDeg) * t) 3000
          ≤ max (fc.closeDeg : Int) fc.openDeg) ∧
      (min (fc.openDeg : Int) fc.closeDeg
          ≤ (fc.openDeg : Int) + Int.tdiv (((fc.closeDeg : Int) - fc.openDeg) * t) 3000 ∧
        (fc.openDeg : Int) + Int.tdiv (((fc.closeDeg : Int) - fc.openDeg) * t) 3000
          ≤ max (fc.openDeg : Int) fc.closeDeg) ∧
      (t = 0 →
        (fc.closeDeg : Int) + Int.tdiv (((fc.openDeg : Int) - fc.closeDeg) * t) 3000
          = fc.closeDeg ∧
        (fc.openDeg : Int) + Int.tdiv (((fc.closeDeg : Int) - fc.openDeg) * t) 3000
          = fc.openDeg) ∧
      (t = 3000 →
        (fc.closeDeg : Int) + Int.tdiv (((fc.openDeg : Int) - fc.closeDeg) * t) 3000
          = fc.openDeg ∧
        (fc.openDeg : Int) + Int.tdiv (((fc.closeDeg : Int) - fc.openDeg) * t) 3000
          = fc.closeDeg) := by
  have ht0 : (0 : Int) ≤ (t : Int) := Int.ofNat_nonneg t
  have ht1 : (t : Int) ≤ 3000 := by exact_mod_cast ht
  have hc0 : (0 : Int) ≤ (fc.closeDeg : Int) := Int.ofNat_nonneg _
  have hc1 : (fc.closeDeg : Int) ≤ 180 := by exact_mod_cast hc
  have ho0 : (0 : Int) ≤ (fc.openDeg : Int) := Int.ofNat_nonneg _
  have ho1 : (fc.openDeg : Int) ≤ 180 := by exact_mod_cast ho
  obtain ⟨m1, l1, u1⟩ := map_door t fc.closeDeg fc.openDeg ht0 ht1 hc0 hc1 ho0 ho1
  obtain ⟨m2, l2, u2⟩ := map_door t fc.openDeg fc.closeDeg ht0 ht1 ho0 ho1 hc0 hc1
  have hds : ((DOOR_SPEED : Nat) : Int) = 3000 := rfl
  refine ⟨?_, ?_, ⟨l1, u1⟩, ⟨l2, u2⟩, ?_, ?_⟩
  · intro hp hr
    rw [fc.service_opening_write crcOf e curr ms hen hw hp hr, hel, hds, m1]
    rfl
  · intro hp hr
    rw [fc.service_closing_write crcOf e curr ms hen hw hp hr, hel, hds, m2]
    rfl
  · intro h0
    subst h0
    simp
  · intro h3
    subst h3
    have e1 : (((3000 : Nat) : Int)) = 3000 := rfl
    rw [e1, Int.mul_tdiv_cancel _ (by norm_num), Int.mul_tdiv_cancel _ (by norm_num)]
    constructor <;> omega

set_option maxRecDepth 100000 in
/-- C17, witness: door 1 (closeDeg 0, openDeg 90) in phase OPENING since
millis() = 1000, serviced at millis() = 2500: 1500 ms elapsed, position 45. -/
theorem C17_interpolated_position_witness :
    door1Opening.elapsed 2500 = 1500 ∧
      (door1Opening.service eeprom_crc blankEEPROM 1477902601 2500).1.doorServo.writes
        = ((door1Opening.closeDeg : Int)
            + Int.tdiv (((door1Opening.openDeg : Int) - door1Opening.closeDeg) * (1500 : Nat))
                3000) :: door1Opening.doorServo.writes ∧
      (door1Opening.service eeprom_crc blankEEPROM 1477902601 2500).1.doorServo.writes = [45] :=
  ⟨by decide,
    (C17_interpolated_position eeprom_crc door1Opening blankEEPROM 1477902601 2500 1500
      (by decide) (by decide) (by decide) (by decide) (by decide) (by decide)).1
      (by decide) (by decide),
    by decide⟩

/-- C18: for every 32-bit phase-entry timestamp msStateChange and every true
elapsed duration d below 2^31 ms, when `millis()` reads (msStateChange + d) mod
2^32 the value `(long)(millis() - msStateChange)` that `service` feeds to `map`
equals d, also when the counter has wrapped in between. -/
theorem C18_elapsed_wraparound_safe (fc : FeedCompart) (d : Nat)
    (hs : fc.msStateChange < 2 ^ 32) (hd : d < 2 ^ 31) :
    fc.elapsed ((fc.msStateChange + d) % 2 ^ 32) = (d : Int) := by
  unfold FeedCompart.elapsed toInt32
  omega

set_option maxRecDepth 100000 in
/-- C18, witness: phase entered at millis() = 4294967000, 1000 ms elapsed; the
counter has wrapped and reads 704. -/
theorem C18_elapsed_wraparound_safe_witness :
    (door1OpeningLate.msStateChange + 1000) % 2 ^ 32 = 704 ∧
      door1OpeningLate.elapsed ((door1OpeningLate.msStateChange + 1000) % 2 ^ 32)
        = ((1000 : Nat) : Int) :=
  ⟨by decide, C18_elapsed_wraparound_safe door1OpeningLate 1000 (by decide) (by decide)⟩

set_option maxRecDepth 100000 in
/-- C19, counterexample: door 1 (closeDeg 0, openDeg 90) is constructed, `begin`
loads an enabled record for Monday 08:30, the trigger fires on Monday
31 October 2016, the door is driven open (position 90, phase OPEN), and the
next `service` call comes on Tuesday. The phase is then CLOSED, while the last
position written to the servo and its read-back are 90, not closeDeg = 0. -/
theorem C19_counterexample :
    door1Monday.currDoorState = CLOSED ∧
      (FeedCompart.run eeprom_crc (door1Monday.begin eeprom_crc savedTwiceEEPROM 1477902000)
        (mondayThenTuesday.take 3)).1.currDoorState = OPEN ∧
      (FeedCompart.run eeprom_crc (door1Monday.begin eeprom_crc savedTwiceEEPROM 1477902000)
        mondayThenTuesday).1.currDoorState = CLOSED ∧
      (FeedCompart.run eeprom_crc (door1Monday.begin eeprom_crc savedTwiceEEPROM 1477902000)
        mondayThenTuesday).1.doorServo.writes.head? = some 90 ∧
      (FeedCompart.run eeprom_crc (door1Monday.begin eeprom_crc savedTwiceEEPROM 1477902000)
        mondayThenTuesday).1.doorServo.read = 90 ∧
      (FeedCompart.run eeprom_crc (door1Monday.begin eeprom_crc savedTwiceEEPROM 1477902000)
        mondayThenTuesday).1.closeDeg = 0 := by
  decide

/-- C19, amended: for a door with closeDeg in 0..180, in every state reached
from `begin` by a sequence of `service` and `enable` calls in which no
`service` call finds the record disabled or another weekday while the phase is
not CLOSED, whenever the phase is CLOSED the servo reads closeDeg (the last
position written, clamped to 0..180, is closeDeg). -/
theorem C19_closed_phase_door_shut (crcOf : List Nat → Nat) (fc : FeedCompart) (e : EEPROM)
    (curr : Nat) (calls : List DoorCall) (hc : fc.closeDeg ≤ 180)
    (hg : FeedCompart.gateSparesMotion crcOf (fc.begin crcOf e curr) calls) :
    (FeedCompart.run crcOf (fc.begin crcOf e curr) calls).1.closeDeg = fc.closeDeg ∧
      ((FeedCompart.run crcOf (fc.begin crcOf e curr) calls).1.currDoorState = CLOSED →
        (FeedCompart.run crcOf (fc.begin crcOf e curr) calls).1.doorServo.read
          = (FeedCompart.run crcOf (fc.begin crcOf e curr) calls).1.closeDeg) := by
  obtain ⟨_, hb2, hb3⟩ := fc.begin_servo crcOf e curr
  have hread : (fc.begin crcOf e curr).1.doorServo.read = fc.closeDeg := by
    rw [hb3]
    exact Servo.read_write _ _ hc
  obtain ⟨a, b⟩ := FeedCompart.run_closed_inv crcOf fc.closeDeg calls (fc.begin crcOf e curr)
    hg hb2 (fun _ => hread)
  exact ⟨a, fun h => (b h).trans a.symm⟩

set_option maxRecDepth 100000 in
/-- C19, witness: door 1 through a full cycle on Monday 31 October 2016; no
call finds the gate shut, and the door ends CLOSED with the servo at closeDeg. -/
theorem C19_closed_phase_door_shut_witness :
    FeedCompart.gateSparesMotion eeprom_crc
        (door1Monday.begin eeprom_crc savedTwiceEEPROM 1477902000) mondayCycle ∧
      (FeedCompart.run eeprom_crc (door1Monday.begin eeprom_crc savedTwiceEEPROM 1477902000)
        mondayCycle).1.currDoorState = CLOSED ∧
      (FeedCompart.run eeprom_crc (door1Monday.begin eeprom_crc savedTwiceEEPROM 1477902000)
        mondayCycle).1.doorServo.read
        = (FeedCompart.run eeprom_crc (door1Monday.begin eeprom_crc savedTwiceEEPROM 1477902000)
            mondayCycle).1.closeDeg :=
  have hg : FeedCompart.gateSparesMotion eeprom_crc
      (door1Monday.begin eeprom_crc savedTwiceEEPROM 1477902000) mondayCycle :=
    ⟨Or.inl (by decide), Or.inl (by decide), Or.inl (by decide), Or.inl (by decide),
      Or.inl (by decide), Or.inl (by decide), trivial⟩
  ⟨hg, by decide,
    (C19_closed_phase_door_shut eeprom_crc door1Monday savedTwiceEEPROM 1477902000 mondayCycle
      (by decide) hg).2 (by decide)⟩

/-- C20: for every in-memory record and every prior EEPROM content, after two
`saveSettingsToEE` calls in a row the slot holds the four field bytes of the
record followed by the CRC of exactly those stored bytes, so the following
`loadSettingsFromEE` returns true. After the first save the stored checksum is
the CRC of the field cells as they were before that save. -/
theorem C20_second_save_makes_checksum_consistent (crcOf : List Nat → Nat) (fc : FeedCompart)
    (e : EEPROM) :
    ((fc.saveSettingsToEE crcOf e).1.saveSettingsToEE crcOf
        (fc.saveSettingsToEE crcOf e).2).2.bytes fc.eepromLoc 4
        = [fc.settings.enabled % 256, fc.settings.Minute % 256, fc.settings.Hour % 256,
            fc.settings.Wday % 256] ∧
      fc.storedCrc ((fc.saveSettingsToEE crcOf e).1.saveSettingsToEE crcOf
          (fc.saveSettingsToEE crcOf e).2).2
        = crcOf (((fc.saveSettingsToEE crcOf e).1.saveSettingsToEE crcOf
            (fc.saveSettingsToEE crcOf e).2).2.bytes fc.eepromLoc 4) % 2 ^ 32 ∧
      (((fc.saveSettingsToEE crcOf e).1.saveSettingsToEE crcOf
          (fc.saveSettingsToEE crcOf e).2).1.loadSettingsFromEE crcOf
        ((fc.saveSettingsToEE crcOf e).1.saveSettingsToEE crcOf
          (fc.saveSettingsToEE crcOf e).2).2).2 = true ∧
      fc.storedCrc (fc.saveSettingsToEE crcOf e).2 = crcOf (e.bytes fc.eepromLoc 4) % 2 ^ 32 := by
  have hb1 := fc.save_bytes crcOf e
  have hb2 := (fc.saveSettingsToEE crcOf e).1.save_bytes crcOf (fc.saveSettingsToEE crcOf e).2
  have hs2 := (fc.saveSettingsToEE crcOf e).1.save_storedCrc crcOf (fc.saveSettingsToEE crcOf e).2
  have hv := (fc.saveSettingsToEE crcOf e).1.load_after_save_valid_iff crcOf
    (fc.saveSettingsToEE crcOf e).2
  have hloc : (fc.saveSettingsToEE crcOf e).1.eepromLoc = fc.eepromLoc := rfl
  have hset : (fc.saveSettingsToEE crcOf e).1.settings.enabled = fc.settings.enabled ∧
      (fc.saveSettingsToEE crcOf e).1.settings.Minute = fc.settings.Minute ∧
      (fc.saveSettingsToEE crcOf e).1.settings.Hour = fc.settings.Hour ∧
      (fc.saveSettingsToEE crcOf e).1.settings.Wday = fc.settings.Wday := ⟨rfl, rfl, rfl, rfl⟩
  rw [hloc, hset.1, hset.2.1, hset.2.2.1, hset.2.2.2] at hb2 hv
  rw [hloc] at hs2
  have hsc : (fc.saveSettingsToEE crcOf e).1.storedCrc
      ((fc.saveSettingsToEE crcOf e).1.saveSettingsToEE crcOf (fc.saveSettingsToEE crcOf e).2).2
      = fc.storedCrc ((fc.saveSettingsToEE crcOf e).1.saveSettingsToEE crcOf
          (fc.saveSettingsToEE crcOf e).2).2 := rfl
  rw [hsc] at hs2
  refine ⟨hb2, ?_, ?_, fc.save_storedCrc crcOf e⟩
  · rw [hs2, hb2, hb1]
  · rw [hv, hb1]

end KittyFeeder
